import Mathlib

/-! webhookd, package `worker`.

A shallow embedding of `pkg/worker/worker.go` and `pkg/worker/script_runner.go`.

* Part 1: the sequential pieces (`notify`, the body of the `select` case that
  handles a work request, the set-up phase of `runScript`, the line scanner and
  the body of the streaming loop).
* Part 2: the interleaving of the goroutine that called `runScript` with the
  goroutine `runScript` starts at `script_runner.go:68`.
* Part 3: the Worker loop together with `Stop()` and the dispatcher.

Text (`string`, `[]byte`) is modelled by `String`, one character per byte.
Go's `error` values are modelled by `Option String` (`none` is `nil`).
-/

namespace Webhookd

/-! ## Part 1. Data model and sequential code -/

/-- Modelled from the spec: the type `WorkRequest` is declared outside the two
source files. These are the fields the specification lists and that `worker.go`
and `script_runner.go` read; `MessageChan` is modelled separately by `Chan`. -/
structure WorkRequest where
  Name : String
  Script : String
  Payload : String
  Args : List String
deriving DecidableEq, Repr

/-- The goroutine that performs a send on `MessageChan`: the streaming goroutine
of `runScript` (`script_runner.go:73`) or the Worker (`worker.go:48`, `52`). -/
inductive Sender where
  | stream
  | worker
deriving DecidableEq, Repr

/-- One operation performed on `MessageChan`. -/
inductive ChanOp where
  | send (who : Sender) (msg : String)
  | close
deriving DecidableEq, Repr

/-- MessageChan, as the history of the operations performed on it, oldest first. -/
abbrev Chan := List ChanOp

/-- Whether `close` has been performed on the channel. -/
def Chan.closed (c : Chan) : Bool := c.any (fun op => op == ChanOp.close)

/-- Go's `ch <- msg`: a send on a closed channel panics (`none`). -/
def Chan.send (c : Chan) (who : Sender) (msg : String) : Option Chan :=
  if c.closed then none else some (c ++ [ChanOp.send who msg])

/-- Go's `close(ch)`: closing a closed channel panics (`none`). -/
def Chan.close (c : Chan) : Option Chan :=
  if c.closed then none else some (c ++ [ChanOp.close])

/-- The messages sent on the channel, in order: what the reader observes. -/
def Chan.messages : Chan → List String
  | [] => []
  | ChanOp.send _ m :: rest => m :: Chan.messages rest
  | ChanOp.close :: rest => Chan.messages rest

/-- The messages a given goroutine sent on the channel, in order. -/
def Chan.sentBy (who : Sender) : Chan → List String
  | [] => []
  | ChanOp.send w m :: rest =>
      if w = who then m :: Chan.sentBy who rest else Chan.sentBy who rest
  | ChanOp.close :: rest => Chan.sentBy who rest

/-- Number of `close` operations in the history. -/
def Chan.closeCount (c : Chan) : Nat := c.count ChanOp.close

/-- The arguments of one call `notify(subject, text, outfilename)` (`worker.go:72`). -/
structure NotifyArgs where
  subject : String
  text : String
  outfilename : String
deriving DecidableEq, Repr

/-- The subject built at `worker.go:47`: `fmt.Sprintf("Webhook %s FAILED.", work.Name)`. -/
def failedSubject (work : WorkRequest) : String := "Webhook " ++ work.Name ++ " FAILED."

/-- The subject built at `worker.go:51`: `fmt.Sprintf("Webhook %s SUCCEEDED.", work.Name)`. -/
def succeededSubject (work : WorkRequest) : String := "Webhook " ++ work.Name ++ " SUCCEEDED."

/-- The terminal message of `worker.go:48` and `worker.go:52`. -/
def terminalMessage : Option String → String
  | some e => "error: " ++ e
  | none => "done"

/-- The call to `notify` made at `worker.go:49` and `worker.go:53`. -/
def jobNotification (work : WorkRequest) (filename : String) : Option String → NotifyArgs
  | some e => { subject := failedSubject work, text := e, outfilename := filename }
  | none => { subject := succeededSubject work, text := "See attachment.", outfilename := filename }

/-- The body of `case work := <-w.Work` once `runScript` has returned
`(filename, err)`: `worker.go:46-55`. The result is the channel afterwards and the
call made to `notify`; `none` is a panic on the channel. -/
def finishJob (work : WorkRequest) (filename : String) (err : Option String) (ch : Chan) :
    Option (Chan × NotifyArgs) :=
  match err with
  | some e =>
    match ch.send Sender.worker ("error: " ++ e) with
    | none => none
    | some ch1 =>
      let call : NotifyArgs := { subject := failedSubject work, text := e, outfilename := filename }
      match ch1.close with
      | none => none
      | some ch2 => some (ch2, call)
  | none =>
    match ch.send Sender.worker "done" with
    | none => none
    | some ch1 =>
      let call : NotifyArgs :=
        { subject := succeededSubject work, text := "See attachment.", outfilename := filename }
      match ch1.close with
      | none => none
      | some ch2 => some (ch2, call)

/-- One call `notifier.Notify(subject, text, attachment)` (`worker.go:92`). -/
structure NotifierCall where
  subject : String
  text : String
  attachment : String
deriving DecidableEq, Repr

/-- The function `notify` of `worker.go:72-93`. `factory` is the pair returned by
`notification.NotifierFactory()` (whether a notifier was returned, and the error);
`CompressFile` is `tools.CompressFile`, returning its pair `(zipfile, err)`.
The result is the list of calls made to the notifier's `Notify`. -/
def notify (factory : Bool × Option String) (CompressFile : String → String × Option String)
    (subject text outfilename : String) : List NotifierCall :=
  match factory.2 with
  | some _ => []
  | none =>
    if factory.1 = false then []
    else
      let zipfile : String :=
        if outfilename ≠ "" then
          match CompressFile outfilename with
          | (_, some _) => outfilename
          | (z, none) => z
        else ""
      [{ subject := subject, text := text, attachment := zipfile }]

/-! ### The set-up phase of `runScript` (`script_runner.go:26-65`) -/

/-- The wall-clock fields that the layout `"20060102_1504"` prints. -/
structure Time where
  year : Nat
  month : Nat
  day : Nat
  hour : Nat
  minute : Nat
deriving DecidableEq, Repr

/-- Decimal digits of `n`, zero-padded on the left to at least `width` digits
(what `time.Format` does for the numeric fields of a layout). -/
def zeroPad (width n : Nat) : String :=
  String.mk (List.replicate (width - (Nat.toDigits 10 n).length) '0' ++ Nat.toDigits 10 n)

/-- The call `time.Now().Format("20060102_1504")` of `script_runner.go:47`:
year, month, day, an underscore, hour, minute. -/
def Time.format (t : Time) : String :=
  zeroPad 4 t.year ++ zeroPad 2 t.month ++ zeroPad 2 t.day ++ "_" ++
    zeroPad 2 t.hour ++ zeroPad 2 t.minute

/-- The value of `exec.Command(binary, work.Payload)` with its `Env` set
(`script_runner.go:42-44`). -/
structure Cmd where
  Path : String
  Args : List String
  Env : List String
deriving DecidableEq, Repr

/-- The host the code calls into: the operating system, the Go library and the
helpers of package `tools`, each as the function of its arguments that the call
returns. `ToSnakeCase` is `tools.ToSnakeCase` and `Join` is `path.Join`. -/
structure Sys where
  TempDir : String
  LookPath : String → String × Option String
  Environ : List String
  ToSnakeCase : String → String
  Now : Time
  Join : String → String → String
  Create : String → Option String
  Start : Cmd → Option String

/-- The part of the world `runScript` changes before it waits: the package
variable `workingdir`, the files it created (path and content, newest first) and
the processes it started. -/
structure World where
  workingdir : String
  files : List (String × String)
  started : List Cmd
deriving DecidableEq, Repr

/-- The package initialisation `workingdir = os.Getenv("APP_WORKING_DIR")`
(`script_runner.go:26-28`), given the value of the variable. -/
def World.boot (appWorkingDir : String) : World :=
  { workingdir := appWorkingDir, files := [], started := [] }

/-- The call `os.Create(path)` when it succeeds: the file exists and is empty. -/
def World.create (w : World) (path : String) : World :=
  { w with files := (path, "") :: w.files.filter (fun f => f.1 ≠ path) }

/-- How the set-up phase of `runScript` ends: with an early `return`
(`script_runner.go:38`, `50`, `64`) or with the process running and the log file
open, ready for the streaming goroutine and `cmd.Wait()`. -/
inductive Setup where
  | returned (filename : String) (err : String) (w : World)
  | running (logFilename : String) (cmd : Cmd) (w : World)
deriving DecidableEq, Repr

/-- The command built at `script_runner.go:42-44`: `exec.Command(binary,
work.Payload)` with `cmd.Env = append(os.Environ(), work.Args...)`. -/
def commandOf (sys : Sys) (binary : String) (work : WorkRequest) : Cmd :=
  { Path := binary, Args := [binary, work.Payload], Env := sys.Environ ++ work.Args }

/-- The function `runScript` up to and including `cmd.Start()`
(`script_runner.go:30-65`). -/
def runScriptSetup (sys : Sys) (w : World) (work : WorkRequest) : Setup :=
  let w1 : World := { w with workingdir := if w.workingdir = "" then sys.TempDir else w.workingdir }
  match sys.LookPath work.Script with
  | (_, some err) => Setup.returned "" err w1
  | (binary, none) =>
    let cmd : Cmd := commandOf sys binary work
    let logFilename :=
      sys.Join w1.workingdir (sys.ToSnakeCase work.Name ++ "_" ++ sys.Now.format ++ ".txt")
    match sys.Create logFilename with
    | some err => Setup.returned "" err w1
    | none =>
      let w2 := w1.create logFilename
      match sys.Start cmd with
      | some err => Setup.returned logFilename err w2
      | none => Setup.running logFilename cmd { w2 with started := cmd :: w2.started }

/-- The world the set-up phase of `runScript` leaves. -/
def Setup.world : Setup → World
  | Setup.returned _ _ w => w
  | Setup.running _ _ w => w

/-- The pair `(filename, err)` that `runScript` returns when it returns during
its set-up phase (`script_runner.go:38`, `50`, `64`). -/
def Setup.early : Setup → Option (String × String)
  | Setup.returned filename err _ => some (filename, err)
  | Setup.running _ _ _ => none

/-- The world after the process started and `runScript` was then called for each
of `calls` (newest first), as far as the set-up phase of `runScript` changes it:
the package variable `workingdir`, the log files created and the processes
started. -/
def worldAfter (appWorkingDir : String) : List (Sys × WorkRequest) → World
  | [] => World.boot appWorkingDir
  | (sys, work) :: earlier => (runScriptSetup sys (worldAfter appWorkingDir earlier) work).world

/-! ### The scanner and the streaming loop (`script_runner.go:55-85`) -/

/-- The constant `bufio.MaxScanTokenSize`: the largest buffer of a default
`bufio.Scanner`. -/
def MaxScanTokenSize : Nat := 64 * 1024

/-- Why `scanner.Scan()` stops delivering tokens. -/
inductive ScanStop where
  | blocked
  | eof
  | tooLong
deriving DecidableEq, Repr

/-- The helper `dropCR` of `bufio.ScanLines`: one trailing carriage return is
dropped from a line. -/
def dropCR (line : List Char) : List Char :=
  if line.getLast? = some '\r' then line.dropLast else line

/-- A line as delivered by `bufio.ScanLines`: without a trailing carriage return. -/
def stripCR (l : String) : String := String.mk (dropCR l.data)

/-- The tokens a `bufio.Scanner` with the split function `bufio.ScanLines`
delivers on the bytes `data`, and why it stops. `cur` holds, newest first, the
bytes of the line being assembled in the buffer. A token ends at the first
newline; when the buffer holds `maxTok` bytes without a newline the scanner stops
with `bufio.ErrTooLong`; at the end of the data the scanner blocks in `Read`
unless the reader is at end of file (`closed`), where a last unterminated line
is delivered. -/
def scanFrom (maxTok : Nat) (closed : Bool) : List Char → List Char → List String × ScanStop
  | cur, [] =>
    if closed then
      if cur = [] then ([], ScanStop.eof) else ([String.mk (dropCR cur.reverse)], ScanStop.eof)
    else ([], ScanStop.blocked)
  | cur, c :: rest =>
    if c = '\n' then
      (String.mk (dropCR cur.reverse) :: (scanFrom maxTok closed [] rest).1,
        (scanFrom maxTok closed [] rest).2)
    else if maxTok ≤ cur.length + 1 then ([], ScanStop.tooLong)
    else scanFrom maxTok closed (c :: cur) rest

/-- The scanner of `script_runner.go:69` on the combined output `data`: the
write end of the pipe is never closed by `runScript`, so the reader never is at
end of file. -/
def scanLines (data : String) : List String × ScanStop :=
  scanFrom MaxScanTokenSize false [] data.data

/-- The writer `wLogFile` of `script_runner.go:55` (a `bufio.Writer` over the log
file): the bytes that reached the file, the bytes pending in the buffer, the
sticky error of the writer, the number of writes issued to the file, and whether
the file has been closed (the deferred `logFile.Close()` of `script_runner.go:52`). -/
structure LogWriter where
  file : String
  buf : String
  err : Option String
  nwrites : Nat
  closed : Bool
deriving DecidableEq, Repr

/-- The call `wLogFile.WriteString(s)`: the bytes are buffered unless the writer
already failed; the result is the writer and the returned error. The size of the
buffer is not modelled: bytes that `WriteString` would pass on to the file
because the buffer is full reach it with the `Flush` that follows. -/
def LogWriter.WriteString (lw : LogWriter) (s : String) : LogWriter × Option String :=
  match lw.err with
  | some e => (lw, some e)
  | none => ({ lw with buf := lw.buf ++ s }, none)

/-- The call `wLogFile.Flush()`: `disk k` is the error of the `k`-th write to the
file (`none` when it succeeds); a write to a closed file fails; a failed write
leaves the file as it was and makes the writer fail from then on. -/
def LogWriter.Flush (disk : Nat → Option String) (lw : LogWriter) : LogWriter × Option String :=
  match lw.err with
  | some e => (lw, some e)
  | none =>
    if lw.buf = "" then (lw, none)
    else if lw.closed then ({ lw with err := some "file already closed" }, some "file already closed")
    else
      match disk lw.nwrites with
      | some e => ({ lw with err := some e, nwrites := lw.nwrites + 1 }, some e)
      | none => ({ lw with file := lw.file ++ lw.buf, buf := "", nwrites := lw.nwrites + 1 }, none)

/-- A freshly created log file behind a new `bufio.Writer`. -/
def LogWriter.fresh : LogWriter :=
  { file := "", buf := "", err := none, nwrites := 0, closed := false }

/-- The deferred `logFile.Close()` (`script_runner.go:52`), run when `runScript`
returns. -/
def LogWriter.Close (lw : LogWriter) : LogWriter := { lw with closed := true }

/-- One iteration of the loop `for scanner.Scan()` on the token `line`
(`script_runner.go:71-80`): send on `MessageChan`, `WriteString`, `Flush`.
The result is `none` when the send panics. -/
def streamBody (disk : Nat → Option String) (line : String) (st : Chan × LogWriter) :
    Option (Chan × LogWriter) :=
  match st.1.send Sender.stream line with
  | none => none
  | some ch =>
    let lw1 := (st.2.WriteString (line ++ "\n")).1
    let lw2 := (lw1.Flush disk).1
    some (ch, lw2)

/-- The loop `for scanner.Scan()` run over the tokens the scanner delivers. -/
def streamLoop (disk : Nat → Option String) : List String → Chan × LogWriter →
    Option (Chan × LogWriter)
  | [], st => some st
  | line :: rest, st =>
    match streamBody disk line st with
    | none => none
    | some st1 => streamLoop disk rest st1

/-! ## Part 2. One job: the caller of `runScript` and the streaming goroutine

After `cmd.Start()` succeeded two goroutines run side by side: the Worker's
goroutine, which is inside `runScript` at `cmd.Wait()` and then executes
`worker.go:46-55`, and the goroutine started at `script_runner.go:68`. The child
process and the copying that `os/exec` does into the write end `w` of the
`io.Pipe` are represented by `pipe`: the lines of output that the scanner has not
read yet. A write into an `io.Pipe` returns once the reader has taken its bytes,
so `cmd.Wait()` can return exactly when `pipe` is empty. The output is given as
its lines, each complete (ended by a newline in the pipe). A line of
`MaxScanTokenSize` bytes or more makes `scanner.Scan()` return `false` with
`bufio.ErrTooLong`: the loop ends and what is left of the output stays in the
pipe. The reader of `MessageChan` is taken to be always ready to receive. -/

/-- Program points of the goroutine started at `script_runner.go:68`: `scan` is
the call `scanner.Scan()` (`:70`), `send` the send of the line on `MessageChan`
(`:73`), `write` the `WriteString` (`:75`), `flush` the `Flush` (`:78`),
`loopExit` the check of `scanner.Err()` after the loop (`:82`), and `finished`
the end of the goroutine. -/
inductive StreamPC where
  | scan
  | send (line : String)
  | write (line : String)
  | flush
  | loopExit
  | finished
deriving DecidableEq, Repr

/-- Program points of the Worker's goroutine from `cmd.Wait()` to the end of the
`select` case: `wait` is `err = cmd.Wait()` (`script_runner.go:87`), `check` the
test `if err != nil` (`:88`), `returnErr` the `return logFilename, err` of `:90`,
`returned filename err` the point where `runScript` has returned that pair
(`worker.go:45-46`), `notifying` the call of `notify` (`worker.go:49`, `53`),
`closing` the `close(work.MessageChan)` (`worker.go:55`) and `idle` the end of
the case. -/
inductive MainPC where
  | wait
  | check
  | returnErr
  | returned (filename : String) (err : Option String)
  | notifying (call : NotifyArgs)
  | closing
  | idle
deriving DecidableEq, Repr

/-- What is fixed during one job. `output` is the combined output of the child,
line by line; `waitErr` is what `cmd.Wait()` returns (`none` exactly when the
exit status is zero); `disk` is the outcome of each write to the log file. -/
structure JobParams where
  work : WorkRequest
  logFilename : String
  output : List String
  waitErr : Option String
  disk : Nat → Option String

/-- The state of one job. `err` is the variable `err` of `runScript`, which the
closure of `script_runner.go:68` captures; `pipeClosed` says whether the write end
of the `io.Pipe` has been closed; `buffered` are the complete lines in the
scanner's buffer; `panic` is the goroutine that panicked, if any. -/
structure Job where
  main : MainPC
  stream : StreamPC
  err : Option String
  pipe : List String
  pipeClosed : Bool
  buffered : List String
  chan : Chan
  log : LogWriter
  notifications : List NotifyArgs
  panic : Option Sender
deriving DecidableEq, Repr

/-- The state right after `go func(reader io.Reader)...(r)` at
`script_runner.go:85`: `cmd.Start()` returned `nil`, nothing has been read. -/
def Job.init (p : JobParams) : Job :=
  { main := MainPC.wait, stream := StreamPC.scan, err := none, pipe := p.output,
    pipeClosed := false, buffered := [], chan := [], log := LogWriter.fresh,
    notifications := [], panic := none }

/-- The job that continues `runScript` when its set-up phase left the process
running: `logFilename` is the variable `logFilename` of `script_runner.go:47`,
which lines 64, 90 and 93 return. -/
def Setup.job (work : WorkRequest) (output : List String) (waitErr : Option String)
    (disk : Nat → Option String) : Setup → Option JobParams
  | Setup.running logFilename _ _ =>
    some { work := work, logFilename := logFilename, output := output, waitErr := waitErr,
           disk := disk }
  | Setup.returned _ _ _ => none

/-- A scheduling decision: which goroutine executes its next statement. For the
streaming goroutine `chunk` is used when `scanner.Scan()` has to call `Read`: the
read returns the next `chunk + 1` lines that are in the pipe. -/
inductive Act where
  | stream (chunk : Nat)
  | main
deriving DecidableEq, Repr

/-- The next statement of the streaming goroutine (`script_runner.go:68-85`);
`none` when the goroutine is blocked or has returned. At `scan` a line of the
buffer is delivered as the next token, without its carriage return; with an
empty buffer the scanner reads from the pipe: it blocks on an empty open pipe,
leaves the loop at end of file, leaves the loop with `bufio.ErrTooLong` when the
next line has `MaxScanTokenSize` bytes or more (the rest of the output then stays
in the pipe), and otherwise takes the next line and up to `chunk` further lines
that fit. -/
def streamStep (p : JobParams) (chunk : Nat) (s : Job) : Option Job :=
  match s.stream with
  | StreamPC.scan =>
    match s.buffered with
    | line :: rest => some { s with stream := StreamPC.send (stripCR line), buffered := rest }
    | [] =>
      match s.pipe with
      | [] => if s.pipeClosed then some { s with stream := StreamPC.loopExit } else none
      | next :: more =>
        if MaxScanTokenSize ≤ next.length then some { s with stream := StreamPC.loopExit }
        else
          some { s with stream := StreamPC.send (stripCR next),
                        buffered :=
                          (more.take chunk).takeWhile (fun l => decide (l.length < MaxScanTokenSize)),
                        pipe :=
                          more.drop ((more.take chunk).takeWhile
                            (fun l => decide (l.length < MaxScanTokenSize))).length }
  | StreamPC.send line =>
    match s.chan.send Sender.stream line with
    | none => some { s with panic := some Sender.stream }
    | some ch => some { s with chan := ch, stream := StreamPC.write line }
  | StreamPC.write line =>
    some { s with log := (s.log.WriteString (line ++ "\n")).1, stream := StreamPC.flush }
  | StreamPC.flush =>
    some { s with log := (s.log.Flush p.disk).1, err := (s.log.Flush p.disk).2,
                  stream := StreamPC.scan }
  | StreamPC.loopExit => some { s with stream := StreamPC.finished }
  | StreamPC.finished => none

/-- The next statement of the Worker's goroutine (`script_runner.go:87-93`, then
`worker.go:46-55`); `none` when it is blocked or the case is over. -/
def mainStep (p : JobParams) (s : Job) : Option Job :=
  match s.main with
  | MainPC.wait =>
    if s.pipe = [] then some { s with err := p.waitErr, main := MainPC.check } else none
  | MainPC.check =>
    if s.err ≠ none then some { s with main := MainPC.returnErr }
    else some { s with main := MainPC.returned p.logFilename none, log := s.log.Close }
  | MainPC.returnErr =>
    some { s with main := MainPC.returned p.logFilename s.err, log := s.log.Close }
  | MainPC.returned filename err =>
    match err with
    | some e =>
      match s.chan.send Sender.worker ("error: " ++ e) with
      | none => some { s with panic := some Sender.worker }
      | some ch =>
        some { s with chan := ch,
                      main := MainPC.notifying
                        { subject := failedSubject p.work, text := e, outfilename := filename } }
    | none =>
      match s.chan.send Sender.worker "done" with
      | none => some { s with panic := some Sender.worker }
      | some ch =>
        some { s with chan := ch,
                      main := MainPC.notifying
                        { subject := succeededSubject p.work, text := "See attachment.",
                          outfilename := filename } }
  | MainPC.notifying call =>
    some { s with notifications := s.notifications ++ [call], main := MainPC.closing }
  | MainPC.closing =>
    match s.chan.close with
    | none => some { s with panic := some Sender.worker }
    | some ch => some { s with chan := ch, main := MainPC.idle }
  | MainPC.idle => none

/-- One step of the job: a panic in either goroutine ends the program. -/
def step (p : JobParams) (a : Act) (s : Job) : Option Job :=
  if s.panic ≠ none then none
  else
    match a with
    | Act.stream chunk => streamStep p chunk s
    | Act.main => mainStep p s

/-- An execution: the schedule is carried out from left to right; `none` when
some decision of the schedule is not possible. -/
def run (p : JobParams) : List Act → Job → Option Job
  | [], s => some s
  | a :: rest, s =>
    match step p a s with
    | none => none
    | some s1 => run p rest s1

/-! ## Part 3. The Worker loop, `Stop()` and the dispatcher -/

/-- Program points of the loop of `Worker.Start` (`worker.go:37-60`): `register`
is the send `w.WorkerQueue <- w.Work`, `select` the `select` statement, `running`
the call of `runScript`, `terminal` the send of the terminal message, `notifying`
the call of `notify`, `closing` the `close(work.MessageChan)`, and `retired` the
`return` of the quit case. -/
inductive WorkerPC where
  | register
  | select
  | running
  | terminal
  | notifying
  | closing
  | retired
deriving DecidableEq, Repr

/-- The state of one Worker and of what it shares. `queue` is the content of
the buffered channel `WorkerQueue` (inboxes, named by the ID of their Worker,
oldest first); `held` are the inboxes the dispatcher has received from the queue
and is about to send a WorkRequest on; `quits` counts the goroutines started by
`Stop()` whose send on `QuitChan` has not been received; `started`, `terminals`
and `closes` count the jobs begun, the terminal messages sent and the
`MessageChan`s closed by this Worker. -/
structure Pool where
  pc : WorkerPC
  queue : List Nat
  held : List Nat
  quits : Nat
  started : Nat
  terminals : Nat
  closes : Nat
deriving DecidableEq, Repr

/-- The state when `Start()` has just launched the loop of a new Worker. -/
def Pool.init : Pool :=
  { pc := WorkerPC.register, queue := [], held := [], quits := 0, started := 0,
    terminals := 0, closes := 0 }

/-- The moves of the system around one Worker. -/
inductive PoolAct where
  | worker
  | handoff
  | takeWork
  | takeQuit
  | stop
  | dispatcherTake
  | otherRegister (j : Nat)
  | otherWork (j : Nat)
deriving DecidableEq, Repr

/-- Whether the Worker is executing a WorkRequest (`worker.go:44-55`). -/
def WorkerPC.busy : WorkerPC → Bool
  | WorkerPC.running => true
  | WorkerPC.terminal => true
  | WorkerPC.notifying => true
  | WorkerPC.closing => true
  | _ => false

/-- The moves of the Worker's own goroutine and of `Stop()`, from `worker.go`.
`cap` is the capacity of `WorkerQueue` and `me` the ID of the Worker.

* `worker`: the next statement that is not a receive. At `register` the send on
  `WorkerQueue` needs room in the buffer; the statements of a job follow one
  another and `close` leads back to `register`.
* `handoff`: the send at `register` when a receiver is already waiting on the
  empty `WorkerQueue`: the inbox goes straight to that receiver.
* `takeWork`: `select` takes `case work := <-w.Work`, which needs a sender on the
  inbox.
* `takeQuit`: `select` takes `case <-w.QuitChan`, which needs a pending `Stop()`.
* `stop`: `Stop()` is called. -/
def workerMove (cap me : Nat) (a : PoolAct) (s : Pool) : Option Pool :=
  match a with
  | PoolAct.worker =>
    match s.pc with
    | WorkerPC.register =>
      if s.queue.length < cap then some { s with queue := s.queue ++ [me], pc := WorkerPC.select }
      else none
    | WorkerPC.select => none
    | WorkerPC.running => some { s with pc := WorkerPC.terminal }
    | WorkerPC.terminal => some { s with terminals := s.terminals + 1, pc := WorkerPC.notifying }
    | WorkerPC.notifying => some { s with pc := WorkerPC.closing }
    | WorkerPC.closing => some { s with closes := s.closes + 1, pc := WorkerPC.register }
    | WorkerPC.retired => none
  | PoolAct.handoff =>
    if s.pc = WorkerPC.register ∧ s.queue = [] then
      some { s with held := s.held ++ [me], pc := WorkerPC.select }
    else none
  | PoolAct.takeWork =>
    if s.pc = WorkerPC.select ∧ me ∈ s.held then
      some { s with held := s.held.erase me, started := s.started + 1, pc := WorkerPC.running }
    else none
  | PoolAct.takeQuit =>
    if s.pc = WorkerPC.select ∧ 0 < s.quits then
      some { s with quits := s.quits - 1, pc := WorkerPC.retired }
    else none
  | PoolAct.stop => some { s with quits := s.quits + 1 }
  | _ => none

/-- Modelled from the spec: the dispatcher and the other Workers of the pool,
whose code is not part of the two source files. The dispatcher "dequeues one
handle and hands it a job": `dispatcherTake` receives the oldest inbox of
`WorkerQueue`, and a WorkRequest is then sent on an inbox so received
(`takeWork` of `workerMove` for this Worker, `otherWork j` for another one).
`otherRegister j` is another Worker publishing its inbox. -/
def dispatcherMove (cap me : Nat) (a : PoolAct) (s : Pool) : Option Pool :=
  match a with
  | PoolAct.dispatcherTake =>
    match s.queue with
    | [] => none
    | i :: rest => some { s with queue := rest, held := s.held ++ [i] }
  | PoolAct.otherRegister j =>
    if j ≠ me ∧ s.queue.length < cap then some { s with queue := s.queue ++ [j] } else none
  | PoolAct.otherWork j =>
    if j ≠ me ∧ j ∈ s.held then some { s with held := s.held.erase j } else none
  | _ => none

/-- One move of the system. -/
def poolStep (cap me : Nat) (a : PoolAct) (s : Pool) : Option Pool :=
  match a with
  | PoolAct.dispatcherTake => dispatcherMove cap me a s
  | PoolAct.otherRegister _ => dispatcherMove cap me a s
  | PoolAct.otherWork _ => dispatcherMove cap me a s
  | _ => workerMove cap me a s

/-- An execution of the system: the moves are carried out from left to right;
`none` when some move is not possible. -/
def poolRun (cap me : Nat) : List PoolAct → Pool → Option Pool
  | [], s => some s
  | a :: rest, s =>
    match poolStep cap me a s with
    | none => none
    | some s1 => poolRun cap me rest s1

/-! ## Auxiliary definitions for the statements -/

/-- The last message sent on the channel. -/
def Chan.lastMessage (c : Chan) : Option String := (Chan.messages c).getLast?

/-- Whether a message is a terminal message: exactly `done`, or a text that
begins with `error: `. -/
def isTerminalMessage (m : String) : Bool :=
  m == "done" || ("error: ").data.isPrefixOf m.data

/-- The working directory as the specification words it: the value of
`APP_WORKING_DIR`, or the platform temporary directory when that is empty. -/
def specWorkingDir (sys : Sys) (appWorkingDir : String) : String :=
  if appWorkingDir = "" then sys.TempDir else appWorkingDir

/-- The decimal digit that stands for `d` modulo ten. -/
def decimalDigit (d : Nat) : Char := Char.ofNat (48 + d % 10)

/-- The start time as the specification words it, `YYYYMMDD_HHMM`: the four
digits of the year, two of the month, two of the day, an underscore, two digits
of the hour and two of the minute. -/
def specTimestamp (t : Time) : String :=
  String.mk [decimalDigit (t.year / 1000), decimalDigit (t.year / 100),
    decimalDigit (t.year / 10), decimalDigit t.year,
    decimalDigit (t.month / 10), decimalDigit t.month,
    decimalDigit (t.day / 10), decimalDigit t.day, '_',
    decimalDigit (t.hour / 10), decimalDigit t.hour,
    decimalDigit (t.minute / 10), decimalDigit t.minute]

/-- A wall-clock time of the calendar with a year of at most four digits. -/
def Time.wellFormed (t : Time) : Prop :=
  t.year < 10000 ∧ 1 ≤ t.month ∧ t.month ≤ 12 ∧ 1 ≤ t.day ∧ t.day ≤ 31 ∧ t.hour < 24
    ∧ t.minute < 60

/-- The log path as the specification words it: the working directory joined
with `snake_case(name) + "_" + YYYYMMDD_HHMM + ".txt"`. -/
def specLogPath (sys : Sys) (appWorkingDir : String) (work : WorkRequest) : String :=
  sys.Join (specWorkingDir sys appWorkingDir)
    (sys.ToSnakeCase work.Name ++ "_" ++ specTimestamp sys.Now ++ ".txt")

/-- A host on which only `echo` resolves, at 09:07 on 5 March 2017. -/
def sysDemo : Sys :=
  { TempDir := "/tmp"
    LookPath := fun s =>
      if s = "echo" then ("/bin/echo", none) else ("", some "executable file not found in $PATH")
    Environ := ["HOME=/root"]
    ToSnakeCase := fun s => s
    Now := ⟨2017, 3, 5, 9, 7⟩
    Join := fun d f => d ++ "/" ++ f
    Create := fun _ => none
    Start := fun _ => none }

/-- The host `sysDemo` with a working directory in which no file can be created. -/
def sysCreateFails : Sys :=
  { sysDemo with Create := fun _ => some "permission denied" }

/-- The host `sysDemo` at 23:59 on 31 December 1999, with a `ToSnakeCase` that
turns `MyHook` into `my_hook`. -/
def sysNight : Sys :=
  { sysDemo with
    Now := ⟨1999, 12, 31, 23, 59⟩
    ToSnakeCase := fun s => if s = "MyHook" then "my_hook" else s }

/-- The job as the specification expects it: the one whose log path is
`specLogPath`. -/
def specJob (sys : Sys) (appWorkingDir : String) (work : WorkRequest) (output : List String)
    (waitErr : Option String) (disk : Nat → Option String) : JobParams :=
  { work := work, logFilename := specLogPath sys appWorkingDir work, output := output,
    waitErr := waitErr, disk := disk }

/-- The combined output whose lines are `lines`, each ended by a newline. -/
def outputOf : List String → List Char
  | [] => []
  | l :: rest => l.data ++ '\n' :: outputOf rest

/-- The text of a log file that holds the given lines, each followed by a newline. -/
def logText : List String → String
  | [] => ""
  | l :: rest => l ++ "\n" ++ logText rest

/-- What the streaming loop does with the combined output whose lines are
`lines`, run on an open `MessageChan` and a fresh log file: the messages sent, in
order, and the content of the log file. -/
def streamed (disk : Nat → Option String) (lines : List String) : Option (List String × String) :=
  (streamLoop disk (scanLines (String.mk (outputOf lines))).1 ([], LogWriter.fresh)).map
    (fun st => (Chan.messages st.1, st.2.file))

/-- The property of the streaming loop as the specification words it: one
message per line of the output, in order and without the line terminator, and
the log file holds each of those lines followed by a newline. -/
def StreamsEveryLine (disk : Nat → Option String) (lines : List String) : Prop :=
  streamed disk lines = some (lines.map stripCR, logText (lines.map stripCR))

/-- A job whose script prints `a`, then `b`, and exits with status zero. -/
def jobAB : JobParams :=
  { work := ⟨"hook", "hook.sh", "", []⟩, logFilename := "/tmp/hook_20170305_0907.txt",
    output := ["a", "b"], waitErr := none, disk := fun _ => none }

/-- A job whose script prints `a` and exits with status zero. -/
def jobA : JobParams :=
  { work := ⟨"hook", "hook.sh", "", []⟩, logFilename := "/tmp/hook_20170305_0907.txt",
    output := ["a"], waitErr := none, disk := fun _ => none }

/-- A job whose script prints `a` and exits with status one. -/
def jobFail : JobParams :=
  { work := ⟨"hook", "hook.sh", "", []⟩, logFilename := "/tmp/hook_20170305_0907.txt",
    output := ["a"], waitErr := some "exit status 1", disk := fun _ => none }

/-- A job whose script prints `a` and exits with status zero while the disk is
full. -/
def jobDiskFull : JobParams :=
  { work := ⟨"hook", "hook.sh", "", []⟩, logFilename := "/tmp/hook_20170305_0907.txt",
    output := ["a"], waitErr := none, disk := fun _ => some "no space left on device" }

/-- A job whose script prints `a` and exits with status one while the disk is
full. -/
def jobFailDiskFull : JobParams :=
  { work := ⟨"hook", "hook.sh", "", []⟩, logFilename := "/tmp/hook_20170305_0907.txt",
    output := ["a"], waitErr := some "exit status 1",
    disk := fun _ => some "no space left on device" }

/-- The write end of the pipe is open, the streaming goroutine has not left its
loop, and every line still in the pipe is shorter than `MaxScanTokenSize`. -/
def StreamAlive (s : Job) : Prop :=
  s.pipeClosed = false ∧ s.stream ≠ StreamPC.loopExit ∧ s.stream ≠ StreamPC.finished
    ∧ ∀ l ∈ s.pipe, l.length < MaxScanTokenSize

/-- Number of registrations of the inbox of Worker `me` that are in flight: in
`WorkerQueue` or in the hands of the dispatcher. -/
def Pool.registrations (me : Nat) (s : Pool) : Nat := s.queue.count me + s.held.count me

/-- The registrations in flight at each program point of the Worker. -/
def PoolInv (me : Nat) (s : Pool) : Prop :=
  match s.pc with
  | WorkerPC.select => s.registrations me = 1
  | WorkerPC.retired => s.registrations me ≤ 1
  | _ => s.registrations me = 0

/-- The counters of jobs begun, terminal messages and closes at each program
point of the Worker. -/
def JobInv (s : Pool) : Prop :=
  match s.pc with
  | WorkerPC.running => s.started = s.terminals + 1 ∧ s.started = s.closes + 1
  | WorkerPC.terminal => s.started = s.terminals + 1 ∧ s.started = s.closes + 1
  | WorkerPC.notifying => s.started = s.terminals ∧ s.started = s.closes + 1
  | WorkerPC.closing => s.started = s.terminals ∧ s.started = s.closes + 1
  | _ => s.started = s.terminals ∧ s.started = s.closes

/-! # Theorems -/

/-! ## Lemmas on channels and the Worker by itself -/

theorem Chan.closed_append (c d : Chan) : Chan.closed (c ++ d) = (Chan.closed c || Chan.closed d) := by
  simp [Chan.closed, List.any_append]

theorem Chan.messages_append (c d : Chan) : Chan.messages (c ++ d) = Chan.messages c ++ Chan.messages d := by
  induction c with
  | nil => rfl
  | cons op rest ih => cases op <;> simp [Chan.messages, ih]

theorem Chan.sentBy_append (who : Sender) (c d : Chan) :
    Chan.sentBy who (c ++ d) = Chan.sentBy who c ++ Chan.sentBy who d := by
  induction c with
  | nil => rfl
  | cons op rest ih =>
    cases op with
    | send w m => by_cases h : w = who <;> simp [Chan.sentBy, ih, h]
    | close => simp [Chan.sentBy, ih]

theorem Chan.closeCount_of_open (c : Chan) (h : Chan.closed c = false) : Chan.closeCount c = 0 := by
  unfold Chan.closeCount
  rw [List.count_eq_zero]
  intro hmem
  have : Chan.closed c = true := by
    unfold Chan.closed
    rw [List.any_eq_true]
    exact ⟨ChanOp.close, hmem, by simp⟩
  rw [h] at this
  cases this

theorem error_ne_done (e : String) : "error: " ++ e ≠ "done" := by
  intro h
  have h2 := congrArg String.data h
  rw [String.data_append] at h2
  simp at h2

theorem Chan.send_of_open (c : Chan) (who : Sender) (m : String) (h : Chan.closed c = false) :
    Chan.send c who m = some (c ++ [ChanOp.send who m]) := by
  unfold Chan.send
  rw [h]
  rfl

theorem Chan.close_of_open (c : Chan) (h : Chan.closed c = false) :
    Chan.close c = some (c ++ [ChanOp.close]) := by
  unfold Chan.close
  rw [h]
  rfl

theorem Chan.closed_send (c : Chan) (who : Sender) (m : String) :
    Chan.closed (c ++ [ChanOp.send who m]) = Chan.closed c := by
  rw [Chan.closed_append]
  have : Chan.closed [ChanOp.send who m] = false := by
    simp [Chan.closed]
  rw [this, Bool.or_false]

/-- The Worker by itself: on an open channel, `worker.go:46-55` sends exactly one
message, `done` when `runScript` returned no error and `error: ` followed by the
text of the error otherwise, then closes the channel, once; nothing else is done
on the channel. -/
theorem finishJob_terminal_then_close (work : WorkRequest) (filename : String)
    (err : Option String) (ch : Chan) (hopen : Chan.closed ch = false) :
    finishJob work filename err ch =
        some (ch ++ [ChanOp.send Sender.worker (terminalMessage err), ChanOp.close],
              jobNotification work filename err)
      ∧ (terminalMessage err = "done" ↔ err = none)
      ∧ (∀ e, err = some e → terminalMessage err = "error: " ++ e)
      ∧ Chan.sentBy Sender.worker
            (ch ++ [ChanOp.send Sender.worker (terminalMessage err), ChanOp.close])
          = Chan.sentBy Sender.worker ch ++ [terminalMessage err]
      ∧ Chan.closeCount (ch ++ [ChanOp.send Sender.worker (terminalMessage err), ChanOp.close]) = 1
      ∧ (ch ++ [ChanOp.send Sender.worker (terminalMessage err), ChanOp.close]).getLast?
          = some ChanOp.close
      ∧ (Chan.messages (ch ++ [ChanOp.send Sender.worker (terminalMessage err), ChanOp.close])).getLast?
          = some (terminalMessage err) := by
  refine ⟨?_, ?_, ?_, ?_, ?_, ?_, ?_⟩
  · cases err with
    | none =>
      have h1 := Chan.send_of_open ch Sender.worker "done" hopen
      have h2 := Chan.close_of_open (ch ++ [ChanOp.send Sender.worker "done"])
        (by rw [Chan.closed_send]; exact hopen)
      simp only [finishJob, h1, h2, terminalMessage, jobNotification, List.append_assoc,
        List.singleton_append]
    | some e =>
      have h1 := Chan.send_of_open ch Sender.worker ("error: " ++ e) hopen
      have h2 := Chan.close_of_open (ch ++ [ChanOp.send Sender.worker ("error: " ++ e)])
        (by rw [Chan.closed_send]; exact hopen)
      simp only [finishJob, h1, h2, terminalMessage, jobNotification, List.append_assoc,
        List.singleton_append]
  · cases err with
    | none => simp [terminalMessage]
    | some e => simp [terminalMessage, error_ne_done]
  · intro e he
    subst he
    rfl
  · rw [Chan.sentBy_append]
    simp [Chan.sentBy]
  · have h0 := Chan.closeCount_of_open ch hopen
    unfold Chan.closeCount at h0 ⊢
    rw [List.count_append, h0]
    simp [List.count_cons]
  · simp
  · rw [Chan.messages_append]
    simp [Chan.messages]

/-- The Worker by itself after a failed script that printed `a`. -/
theorem finishJob_terminal_then_close_witness :
    Chan.closed [ChanOp.send Sender.stream "a"] = false ∧
    finishJob ⟨"hook", "hook.sh", "", []⟩ "/tmp/hook_20170305_0907.txt" (some "exit status 1")
        [ChanOp.send Sender.stream "a"]
      = some ([ChanOp.send Sender.stream "a", ChanOp.send Sender.worker "error: exit status 1",
               ChanOp.close],
              ⟨"Webhook hook FAILED.", "exit status 1", "/tmp/hook_20170305_0907.txt"⟩) := by
  refine ⟨by decide, ?_⟩
  have h := (finishJob_terminal_then_close ⟨"hook", "hook.sh", "", []⟩
    "/tmp/hook_20170305_0907.txt" (some "exit status 1") [ChanOp.send Sender.stream "a"]
    (by decide)).1
  rw [h]
  decide

/-! ## `notify` and the set-up phase of `runScript` -/

/-- C8. For every call `notify(subject, text, logPath)` in which a notifier is
obtained (the factory returns a notifier and no error), `Notify` is invoked
exactly once, with the given subject and text, and with an attachment that is:
the empty string when `logPath` is empty; the path returned by `CompressFile`
when `logPath` is not empty and compression succeeds; `logPath` itself when
compression fails. -/
theorem notify_calls_notifier_once (factory : Bool × Option String)
    (CompressFile : String → String × Option String) (subject text logPath : String)
    (hnotifier : factory.1 = true) (herr : factory.2 = none) :
    (logPath = "" →
        notify factory CompressFile subject text logPath
          = [{ subject := subject, text := text, attachment := "" }])
      ∧ (logPath ≠ "" → (CompressFile logPath).2 = none →
          notify factory CompressFile subject text logPath
            = [{ subject := subject, text := text, attachment := (CompressFile logPath).1 }])
      ∧ (logPath ≠ "" → (CompressFile logPath).2 ≠ none →
          notify factory CompressFile subject text logPath
            = [{ subject := subject, text := text, attachment := logPath }])
      ∧ (notify factory CompressFile subject text logPath).length = 1 := by
  obtain ⟨b, e⟩ := factory
  simp only at hnotifier herr
  subst hnotifier
  subst herr
  refine ⟨?_, ?_, ?_, ?_⟩
  · intro h
    simp [notify, h]
  · intro h hz
    rcases hc : CompressFile logPath with ⟨z, ce⟩
    rw [hc] at hz
    simp only at hz
    subst hz
    simp [notify, h, hc]
  · intro h hz
    rcases hc : CompressFile logPath with ⟨z, ce⟩
    rw [hc] at hz
    cases ce with
    | none => exact absurd rfl hz
    | some e => simp [notify, h, hc]
  · simp [notify]

/-- C8 at a call whose compression fails: the raw log file is attached. -/
theorem notify_calls_notifier_once_witness :
    notify (true, none) (fun _ => ("", some "zip: disk full")) "Webhook hook FAILED."
        "exit status 1" "/tmp/hook_20170305_0907.txt"
      = [{ subject := "Webhook hook FAILED.", text := "exit status 1",
           attachment := "/tmp/hook_20170305_0907.txt" }] :=
  (notify_calls_notifier_once (true, none) (fun _ => ("", some "zip: disk full"))
    "Webhook hook FAILED." "exit status 1" "/tmp/hook_20170305_0907.txt" rfl rfl).2.2.1
    (by decide) (by simp)

/-- C4. When `work.Script` does not resolve on the search path (`exec.LookPath`
returns the error `e`), `runScript` returns the empty log path and that error,
and it has created no file and started no process. -/
theorem runScript_unresolved_script (sys : Sys) (w : World) (work : WorkRequest) (e : String)
    (hlook : (sys.LookPath work.Script).2 = some e) :
    ∃ w1, runScriptSetup sys w work = Setup.returned "" e w1
      ∧ w1.files = w.files ∧ w1.started = w.started := by
  rcases hl : sys.LookPath work.Script with ⟨binary, le⟩
  rw [hl] at hlook
  simp only at hlook
  subst hlook
  refine ⟨{ w with workingdir := if w.workingdir = "" then sys.TempDir else w.workingdir }, ?_, rfl, rfl⟩
  simp only [runScriptSetup, hl]

/-- C4 at a script that is not on the search path of `sysDemo`. -/
theorem runScript_unresolved_script_witness :
    ∃ w1, runScriptSetup sysDemo (World.boot "") ⟨"hook", "nope.sh", "", []⟩
        = Setup.returned "" "executable file not found in $PATH" w1
      ∧ w1.files = [] ∧ w1.started = [] :=
  runScript_unresolved_script sysDemo (World.boot "") ⟨"hook", "nope.sh", "", []⟩
    "executable file not found in $PATH" (by decide)

/-! ## The scanner and the streaming loop -/

theorem scanFrom_newline (maxTok : Nat) (closed : Bool) (cur rest : List Char) :
    scanFrom maxTok closed cur ('\n' :: rest)
      = (String.mk (dropCR cur.reverse) :: (scanFrom maxTok closed [] rest).1,
          (scanFrom maxTok closed [] rest).2) := by
  simp [scanFrom]

theorem scanFrom_room (maxTok : Nat) (closed : Bool) (cur rest : List Char) (c : Char)
    (hc : c ≠ '\n') (hroom : ¬ maxTok ≤ cur.length + 1) :
    scanFrom maxTok closed cur (c :: rest) = scanFrom maxTok closed (c :: cur) rest := by
  simp [scanFrom, hc, hroom]

theorem scanFrom_full (maxTok : Nat) (closed : Bool) (cur rest : List Char) (c : Char)
    (hc : c ≠ '\n') (hfull : maxTok ≤ cur.length + 1) :
    scanFrom maxTok closed cur (c :: rest) = ([], ScanStop.tooLong) := by
  simp [scanFrom, hc, hfull]

theorem scanFrom_line (maxTok : Nat) (closed : Bool) (l : List Char) :
    ∀ (cur rest : List Char), '\n' ∉ l → cur.length + l.length < maxTok →
      scanFrom maxTok closed cur (l ++ '\n' :: rest)
        = (String.mk (dropCR (cur.reverse ++ l)) :: (scanFrom maxTok closed [] rest).1,
            (scanFrom maxTok closed [] rest).2) := by
  induction l with
  | nil =>
    intro cur rest _ _
    rw [List.nil_append, scanFrom_newline, List.append_nil]
  | cons c l ih =>
    intro cur rest hnl hlen
    have hc : c ≠ '\n' := fun h => hnl (by simp [h])
    have hl : '\n' ∉ l := fun h => hnl (by simp [h])
    have hroom : ¬ maxTok ≤ cur.length + 1 := by
      simp only [List.length_cons] at hlen
      omega
    have hlen2 : (c :: cur).length + l.length < maxTok := by
      simp only [List.length_cons] at hlen ⊢
      omega
    have h := ih (c :: cur) rest hl hlen2
    rw [List.cons_append, scanFrom_room maxTok closed cur _ c hc hroom, h]
    simp

theorem scanFrom_too_long (maxTok : Nat) (closed : Bool) (l : List Char) :
    ∀ (cur rest : List Char), '\n' ∉ l → maxTok ≤ cur.length + l.length → l ≠ [] →
      scanFrom maxTok closed cur (l ++ rest) = ([], ScanStop.tooLong) := by
  induction l with
  | nil => intro cur rest _ _ h; exact absurd rfl h
  | cons c l ih =>
    intro cur rest hnl hlen _
    have hc : c ≠ '\n' := fun h => hnl (by simp [h])
    have hl : '\n' ∉ l := fun h => hnl (by simp [h])
    by_cases hfull : maxTok ≤ cur.length + 1
    · rw [List.cons_append, scanFrom_full maxTok closed cur _ c hc hfull]
    · have hne : l ≠ [] := by
        intro h
        subst h
        simp at hlen
        omega
      have hlen2 : maxTok ≤ (c :: cur).length + l.length := by
        simp only [List.length_cons] at hlen ⊢
        omega
      rw [List.cons_append, scanFrom_room maxTok closed cur _ c hc hfull]
      exact ih (c :: cur) rest hl hlen2 hne

theorem scanFrom_outputOf (maxTok : Nat) (lines : List String)
    (hnl : ∀ l ∈ lines, '\n' ∉ l.data) (hlen : ∀ l ∈ lines, l.length < maxTok) :
    scanFrom maxTok false [] (outputOf lines) = (lines.map stripCR, ScanStop.blocked) := by
  induction lines with
  | nil => rfl
  | cons l rest ih =>
    have h1 := hnl l (List.mem_cons_self l rest)
    have h2 : ([] : List Char).length + l.data.length < maxTok := by
      have h := hlen l (List.mem_cons_self l rest)
      rw [List.length_nil, Nat.zero_add]
      exact h
    have ih2 := ih (fun x hx => hnl x (List.mem_cons_of_mem l hx))
      (fun x hx => hlen x (List.mem_cons_of_mem l hx))
    rw [outputOf, scanFrom_line maxTok false l.data [] (outputOf rest) h1 h2, ih2]
    rfl

theorem line_newline_ne_empty (line : String) : "" ++ (line ++ "\n") ≠ "" := by
  intro h
  have h2 := congrArg String.length h
  simp only [String.length_append] at h2
  have h3 : ("\n").length = 1 := by decide
  have h4 : ("").length = 0 := by decide
  omega

theorem streamLoop_ok (disk : Nat → Option String) (hdisk : ∀ k, disk k = none)
    (tokens : List String) :
    ∀ (ch : Chan) (lw : LogWriter), Chan.closed ch = false → lw.err = none → lw.buf = "" →
      lw.closed = false →
      streamLoop disk tokens (ch, lw)
        = some (ch ++ tokens.map (ChanOp.send Sender.stream),
                { lw with file := lw.file ++ logText tokens,
                          nwrites := lw.nwrites + tokens.length }) := by
  induction tokens with
  | nil =>
    intro ch lw _ _ _ _
    simp [streamLoop, logText]
  | cons t rest ih =>
    intro ch lw hopen herr hbuf hcl
    have hsend := Chan.send_of_open ch Sender.stream t hopen
    have hne := line_newline_ne_empty t
    have hstep : streamBody disk t (ch, lw)
        = some (ch ++ [ChanOp.send Sender.stream t],
                { lw with file := lw.file ++ (t ++ "\n"), nwrites := lw.nwrites + 1 }) := by
      simp only [streamBody, hsend, LogWriter.WriteString, herr, LogWriter.Flush, hbuf, hne,
        hcl, hdisk, if_false, Bool.false_eq_true]
      simp
    have hopen2 : Chan.closed (ch ++ [ChanOp.send Sender.stream t]) = false := by
      rw [Chan.closed_send]; exact hopen
    have hrest := ih (ch ++ [ChanOp.send Sender.stream t])
      { lw with file := lw.file ++ (t ++ "\n"), nwrites := lw.nwrites + 1 } hopen2 herr hbuf hcl
    rw [streamLoop, hstep]
    simp only
    rw [hrest]
    simp [logText, String.append_assoc, Nat.add_assoc, Nat.add_comm 1]

theorem Chan.messages_map_send (who : Sender) (tokens : List String) :
    Chan.messages (tokens.map (ChanOp.send who)) = tokens := by
  induction tokens with
  | nil => rfl
  | cons t rest ih => simp [Chan.messages, ih]

theorem scanLines_long_line :
    scanLines (String.mk (outputOf [String.mk (List.replicate 65536 'x')]))
      = ([], ScanStop.tooLong) := by
  unfold scanLines
  have hnl : '\n' ∉ List.replicate 65536 'x' := by
    intro h
    have := List.eq_of_mem_replicate h
    exact absurd this (by decide)
  have hlen : MaxScanTokenSize ≤ ([] : List Char).length + (List.replicate 65536 'x').length := by
    rw [List.length_replicate]
    decide
  have hne : List.replicate 65536 'x' ≠ [] := by
    intro h
    have := congrArg List.length h
    rw [List.length_replicate] at this
    cases this
  exact scanFrom_too_long MaxScanTokenSize false (List.replicate 65536 'x') [] ['\n'] hnl hlen hne

theorem streamed_long_line :
    streamed (fun _ => none) [String.mk (List.replicate 65536 'x')] = some ([], "") := by
  unfold streamed
  rw [scanLines_long_line]
  rfl

theorem not_streams_long_line :
    ¬ StreamsEveryLine (fun _ => none) [String.mk (List.replicate 65536 'x')] := by
  unfold StreamsEveryLine
  rw [streamed_long_line]
  intro h
  have h2 := congrArg (fun o => (o.map (fun p => p.1.length))) h
  simp only [Option.map_some', List.length_map, List.length_cons, List.length_nil] at h2
  cases h2

/-- C7, counterexample. With a full disk the loop sends the line `a` and the log
file stays empty; and for an output whose single line has 65536 bytes the scanner
stops with `ErrTooLong`: no message is sent and nothing is logged. -/
theorem stream_misses_lines :
    streamed (fun _ => some "no space left on device") ["a"] = some (["a"], "")
      ∧ ¬ StreamsEveryLine (fun _ => some "no space left on device") ["a"]
      ∧ streamed (fun _ => none) [String.mk (List.replicate 65536 'x')] = some ([], "")
      ∧ ¬ StreamsEveryLine (fun _ => none) [String.mk (List.replicate 65536 'x')] :=
  ⟨by decide, by unfold StreamsEveryLine; decide, streamed_long_line, not_streams_long_line⟩

/-! ## One job: the Worker and the streaming goroutine -/

/-- The three statements of one iteration of the streaming goroutine
(`send`, `write`, `flush`), run without interruption on an open channel, do what
`streamBody` does, and assign the result of `Flush` to `err`. -/
theorem stream_iteration_is_streamBody (p : JobParams) (s : Job) (line : String)
    (hpc : s.stream = StreamPC.send line) (hpanic : s.panic = none)
    (hopen : Chan.closed s.chan = false) :
    run p [Act.stream 0, Act.stream 0, Act.stream 0] s
        = some { s with chan := s.chan ++ [ChanOp.send Sender.stream line],
                        log := ((s.log.WriteString (line ++ "\n")).1.Flush p.disk).1,
                        err := ((s.log.WriteString (line ++ "\n")).1.Flush p.disk).2,
                        stream := StreamPC.scan }
      ∧ streamBody p.disk line (s.chan, s.log)
        = some (s.chan ++ [ChanOp.send Sender.stream line],
                ((s.log.WriteString (line ++ "\n")).1.Flush p.disk).1) := by
  have hsend := Chan.send_of_open s.chan Sender.stream line hopen
  constructor
  · simp [run, step, streamStep, hpc, hpanic, hsend]
  · simp only [streamBody, hsend]

/-- The three statements of the Worker after `runScript` returned (terminal
message, `notify`, `close`), run without interruption on an open channel, do what
`finishJob` does. -/
theorem worker_statements_are_finishJob (p : JobParams) (s : Job) (filename : String)
    (err : Option String) (hpc : s.main = MainPC.returned filename err)
    (hpanic : s.panic = none) (hopen : Chan.closed s.chan = false) :
    run p [Act.main, Act.main, Act.main] s
        = some { s with chan := s.chan ++ [ChanOp.send Sender.worker (terminalMessage err),
                                           ChanOp.close],
                        notifications := s.notifications ++ [jobNotification p.work filename err],
                        main := MainPC.idle }
      ∧ finishJob p.work filename err s.chan
        = some (s.chan ++ [ChanOp.send Sender.worker (terminalMessage err), ChanOp.close],
                jobNotification p.work filename err) := by
  refine ⟨?_, (finishJob_terminal_then_close p.work filename err s.chan hopen).1⟩
  cases err with
  | none =>
    have h1 := Chan.send_of_open s.chan Sender.worker "done" hopen
    have h2 := Chan.close_of_open (s.chan ++ [ChanOp.send Sender.worker "done"])
      (by rw [Chan.closed_send]; exact hopen)
    simp [run, step, mainStep, hpc, hpanic, h1, h2, terminalMessage, jobNotification]
  | some e =>
    have h1 := Chan.send_of_open s.chan Sender.worker ("error: " ++ e) hopen
    have h2 := Chan.close_of_open (s.chan ++ [ChanOp.send Sender.worker ("error: " ++ e)])
      (by rw [Chan.closed_send]; exact hopen)
    simp [run, step, mainStep, hpc, hpanic, h1, h2, terminalMessage, jobNotification]

/-- The Worker's goroutine by itself: when no statement of the streaming
goroutine runs between `cmd.Wait()` and the `return`, `runScript` returns the log
path and exactly the outcome of `cmd.Wait()`. -/
theorem runScript_returns_wait_outcome_uninterrupted (p : JobParams) (s : Job)
    (hmain : s.main = MainPC.wait) (hpipe : s.pipe = []) (hpanic : s.panic = none) :
    (run p (if p.waitErr = none then [Act.main, Act.main] else [Act.main, Act.main, Act.main])
        s).map (fun t => t.main) = some (MainPC.returned p.logFilename p.waitErr) := by
  cases hw : p.waitErr with
  | none => simp [run, step, mainStep, hmain, hpipe, hpanic, hw]
  | some e => simp [run, step, mainStep, hmain, hpipe, hpanic, hw]

/-- The interleaving in which the streaming goroutine handles both lines before
`cmd.Wait()` returns: the reader sees `a`, `b`, `done` and the closure, and the
log file holds `a` and `b`. -/
theorem jobAB_in_order_schedule :
    (run jobAB [Act.stream 1, Act.stream 0, Act.stream 0, Act.stream 0, Act.stream 0,
        Act.stream 0, Act.stream 0, Act.stream 0, Act.main, Act.main, Act.main, Act.main,
        Act.main] (Job.init jobAB)).map (fun s => (s.chan, s.log.file, s.panic))
      = some ([ChanOp.send Sender.stream "a", ChanOp.send Sender.stream "b",
               ChanOp.send Sender.worker "done", ChanOp.close], "a\nb\n", none) := by
  decide

/-- C1, at the failing input. For a script that prints `a` then `b` and exits
with status zero there is an interleaving in which the Worker sends its one
terminal message `done` and closes `MessageChan` once, and the last message
before the closure is the line `b`, which is not a terminal message; run by
itself from the same point (`finishJob`), the Worker leaves `done` as the last
message. -/
theorem last_message_before_close_is_a_line :
    (run jobAB [Act.stream 1, Act.stream 0, Act.main, Act.main, Act.main, Act.stream 0,
        Act.stream 0, Act.stream 0, Act.stream 0, Act.main, Act.main]
        (Job.init jobAB)).map (fun s => (s.main, s.chan, s.panic))
      = some (MainPC.idle,
              [ChanOp.send Sender.stream "a", ChanOp.send Sender.worker "done",
               ChanOp.send Sender.stream "b", ChanOp.close], none)
    ∧ Chan.lastMessage [ChanOp.send Sender.stream "a", ChanOp.send Sender.worker "done",
        ChanOp.send Sender.stream "b", ChanOp.close] = some "b"
    ∧ isTerminalMessage "b" = false
    ∧ Chan.sentBy Sender.worker [ChanOp.send Sender.stream "a", ChanOp.send Sender.worker "done",
        ChanOp.send Sender.stream "b", ChanOp.close] = ["done"]
    ∧ Chan.closeCount [ChanOp.send Sender.stream "a", ChanOp.send Sender.worker "done",
        ChanOp.send Sender.stream "b", ChanOp.close] = 1
    ∧ (finishJob jobAB.work jobAB.logFilename none [ChanOp.send Sender.stream "a"]).map
        (fun r => Chan.lastMessage r.1) = some (some "done") := by
  decide

/-- C2, at the failing input. For a script that prints `a` then `b` and exits
with status zero there are interleavings in which (1) the line `b` is sent on
`MessageChan` after the terminal message `done`, and (2) the Worker has closed
`MessageChan` while the streaming goroutine is about to send `b`, and that send
then is a send on a closed channel (a panic). (3) The same with a single line
of output. -/
theorem line_sent_after_terminal_and_after_close :
    (run jobAB [Act.stream 1, Act.stream 0, Act.main, Act.main, Act.main, Act.stream 0,
        Act.stream 0, Act.stream 0, Act.stream 0] (Job.init jobAB)).map (fun s => s.chan)
      = some [ChanOp.send Sender.stream "a", ChanOp.send Sender.worker "done",
              ChanOp.send Sender.stream "b"]
    ∧ (run jobAB [Act.stream 1, Act.stream 0, Act.main, Act.main, Act.main, Act.main, Act.main,
        Act.stream 0, Act.stream 0, Act.stream 0]
        (Job.init jobAB)).map (fun s => (s.chan, s.main, s.stream))
      = some ([ChanOp.send Sender.stream "a", ChanOp.send Sender.worker "done", ChanOp.close],
              MainPC.idle, StreamPC.send "b")
    ∧ (run jobAB [Act.stream 1, Act.stream 0, Act.main, Act.main, Act.main, Act.main, Act.main,
        Act.stream 0, Act.stream 0, Act.stream 0, Act.stream 0]
        (Job.init jobAB)).map (fun s => (s.chan, s.panic))
      = some ([ChanOp.send Sender.stream "a", ChanOp.send Sender.worker "done", ChanOp.close],
              some Sender.stream)
    ∧ (run jobA [Act.stream 0, Act.main, Act.main, Act.main, Act.main, Act.main, Act.stream 0]
        (Job.init jobA)).map (fun s => (s.chan, s.panic))
      = some ([ChanOp.send Sender.worker "done", ChanOp.close], some Sender.stream) := by
  decide

/-- C3, at the failing input. The assignment `err = wLogFile.Flush()` of
`script_runner.go:78` writes the variable `err` of `runScript`. For a script that
prints `a` and exits with status one there is an interleaving in which
`runScript` returns `nil`, and the Worker then sends `done`; for a script that
exits with status zero, or with status one, while the disk is full there is one
in which `runScript` returns the error of the flush. -/
theorem runScript_result_overwritten_by_flush :
    jobFail.waitErr = some "exit status 1"
    ∧ (run jobFail [Act.stream 0, Act.main, Act.main, Act.stream 0, Act.stream 0, Act.stream 0,
        Act.main] (Job.init jobFail)).map (fun s => s.main)
      = some (MainPC.returned "/tmp/hook_20170305_0907.txt" none)
    ∧ (run jobFail [Act.stream 0, Act.main, Act.main, Act.stream 0, Act.stream 0, Act.stream 0,
        Act.main, Act.main] (Job.init jobFail)).map (fun s => Chan.messages s.chan)
      = some ["a", "done"]
    ∧ jobDiskFull.waitErr = none
    ∧ (run jobDiskFull [Act.stream 0, Act.main, Act.stream 0, Act.stream 0, Act.stream 0,
        Act.main, Act.main] (Job.init jobDiskFull)).map (fun s => s.main)
      = some (MainPC.returned "/tmp/hook_20170305_0907.txt" (some "no space left on device"))
    ∧ jobFailDiskFull.waitErr = some "exit status 1"
    ∧ (run jobFailDiskFull [Act.stream 0, Act.main, Act.main, Act.stream 0, Act.stream 0,
        Act.stream 0, Act.main] (Job.init jobFailDiskFull)).map (fun s => s.main)
      = some (MainPC.returned "/tmp/hook_20170305_0907.txt" (some "no space left on device")) := by
  decide

/-! ## The Worker loop, `Stop()` and the dispatcher -/

theorem poolStep_PoolInv (cap me : Nat) (a : PoolAct) (s t : Pool)
    (hinv : PoolInv me s) (h : poolStep cap me a s = some t) : PoolInv me t := by
  obtain ⟨pc, queue, held, quits, started, terminals, closes⟩ := s
  cases a with
  | worker =>
    cases pc <;> simp [poolStep, workerMove] at h
    · obtain ⟨_, rfl⟩ := h
      simp_all [PoolInv, Pool.registrations, List.count_append]
    all_goals (subst h; simp_all [PoolInv, Pool.registrations])
  | handoff =>
    simp [poolStep, workerMove] at h
    obtain ⟨⟨rfl, rfl⟩, rfl⟩ := h
    simp_all [PoolInv, Pool.registrations, List.count_append]
  | takeWork =>
    simp [poolStep, workerMove] at h
    obtain ⟨⟨rfl, hmem⟩, rfl⟩ := h
    have hpos : 0 < held.count me := List.count_pos_iff.mpr hmem
    simp only [PoolInv, Pool.registrations] at hinv ⊢
    rw [List.count_erase_self]
    omega
  | takeQuit =>
    simp [poolStep, workerMove] at h
    obtain ⟨⟨rfl, _⟩, rfl⟩ := h
    simp_all [PoolInv, Pool.registrations]
  | stop =>
    simp [poolStep, workerMove] at h
    subst h
    cases pc <;> simp_all [PoolInv, Pool.registrations]
  | dispatcherTake =>
    cases queue with
    | nil => simp [poolStep, dispatcherMove] at h
    | cons i rest =>
      simp [poolStep, dispatcherMove] at h
      subst h
      have hc : (i :: rest).count me + held.count me = rest.count me + (held ++ [i]).count me := by
        simp only [List.count_cons, List.count_append, List.count_nil]
        omega
      cases pc <;> simp_all [PoolInv, Pool.registrations]
  | otherRegister j =>
    simp [poolStep, dispatcherMove] at h
    obtain ⟨⟨hj, _⟩, rfl⟩ := h
    have hc : (queue ++ [j]).count me = queue.count me := by
      simp [List.count_append, List.count_cons, hj]
    cases pc <;> simp_all [PoolInv, Pool.registrations]
  | otherWork j =>
    simp [poolStep, dispatcherMove] at h
    obtain ⟨⟨hj, _⟩, rfl⟩ := h
    have hc : (held.erase j).count me = held.count me :=
      List.count_erase_of_ne (fun h => hj h.symm) held
    cases pc <;> simp_all [PoolInv, Pool.registrations]

theorem poolStep_JobInv (cap me : Nat) (a : PoolAct) (s t : Pool)
    (hinv : JobInv s) (h : poolStep cap me a s = some t) : JobInv t := by
  obtain ⟨pc, queue, held, quits, started, terminals, closes⟩ := s
  cases a with
  | worker =>
    cases pc <;> simp [poolStep, workerMove] at h
    · obtain ⟨_, rfl⟩ := h
      simpa [JobInv] using hinv
    all_goals (subst h; simp only [JobInv] at hinv ⊢; omega)
  | handoff =>
    simp [poolStep, workerMove] at h
    obtain ⟨⟨rfl, rfl⟩, rfl⟩ := h
    simpa [JobInv] using hinv
  | takeWork =>
    simp [poolStep, workerMove] at h
    obtain ⟨⟨rfl, _⟩, rfl⟩ := h
    simp only [JobInv] at hinv ⊢
    omega
  | takeQuit =>
    simp [poolStep, workerMove] at h
    obtain ⟨⟨rfl, _⟩, rfl⟩ := h
    simpa [JobInv] using hinv
  | stop =>
    simp [poolStep, workerMove] at h
    subst h
    cases pc <;> simpa [JobInv] using hinv
  | dispatcherTake =>
    cases queue with
    | nil => simp [poolStep, dispatcherMove] at h
    | cons i rest =>
      simp [poolStep, dispatcherMove] at h
      subst h
      cases pc <;> simpa [JobInv] using hinv
  | otherRegister j =>
    simp [poolStep, dispatcherMove] at h
    obtain ⟨_, rfl⟩ := h
    cases pc <;> simpa [JobInv] using hinv
  | otherWork j =>
    simp [poolStep, dispatcherMove] at h
    obtain ⟨_, rfl⟩ := h
    cases pc <;> simpa [JobInv] using hinv

/-- A step never undoes a job that was begun, and a retired Worker stays retired
without beginning a job. -/
theorem poolStep_started (cap me : Nat) (a : PoolAct) (s t : Pool)
    (h : poolStep cap me a s = some t) :
    s.started ≤ t.started ∧ (s.pc = WorkerPC.retired → t.pc = WorkerPC.retired ∧ t.started = s.started) := by
  obtain ⟨pc, queue, held, quits, started, terminals, closes⟩ := s
  cases a with
  | worker =>
    cases pc <;> simp [poolStep, workerMove] at h
    · obtain ⟨_, rfl⟩ := h
      simp
    all_goals (subst h; simp)
  | handoff =>
    simp [poolStep, workerMove] at h
    obtain ⟨⟨rfl, rfl⟩, rfl⟩ := h
    simp
  | takeWork =>
    simp [poolStep, workerMove] at h
    obtain ⟨⟨rfl, _⟩, rfl⟩ := h
    simp
  | takeQuit =>
    simp [poolStep, workerMove] at h
    obtain ⟨⟨rfl, _⟩, rfl⟩ := h
    simp
  | stop =>
    simp [poolStep, workerMove] at h
    subst h
    simp
  | dispatcherTake =>
    cases queue with
    | nil => simp [poolStep, dispatcherMove] at h
    | cons i rest =>
      simp [poolStep, dispatcherMove] at h
      subst h
      simp
  | otherRegister j =>
    simp [poolStep, dispatcherMove] at h
    obtain ⟨_, rfl⟩ := h
    simp
  | otherWork j =>
    simp [poolStep, dispatcherMove] at h
    obtain ⟨_, rfl⟩ := h
    simp

theorem poolRun_PoolInv (cap me : Nat) (sched : List PoolAct) :
    ∀ (s t : Pool), PoolInv me s → poolRun cap me sched s = some t → PoolInv me t := by
  induction sched with
  | nil =>
    intro s t hinv h
    simp only [poolRun, Option.some.injEq] at h
    exact h ▸ hinv
  | cons a rest ih =>
    intro s t hinv h
    rw [poolRun] at h
    cases hstep : poolStep cap me a s with
    | none => rw [hstep] at h; cases h
    | some s1 =>
      rw [hstep] at h
      exact ih s1 t (poolStep_PoolInv cap me a s s1 hinv hstep) h

theorem poolRun_JobInv (cap me : Nat) (sched : List PoolAct) :
    ∀ (s t : Pool), JobInv s → poolRun cap me sched s = some t → JobInv t := by
  induction sched with
  | nil =>
    intro s t hinv h
    simp only [poolRun, Option.some.injEq] at h
    exact h ▸ hinv
  | cons a rest ih =>
    intro s t hinv h
    rw [poolRun] at h
    cases hstep : poolStep cap me a s with
    | none => rw [hstep] at h; cases h
    | some s1 =>
      rw [hstep] at h
      exact ih s1 t (poolStep_JobInv cap me a s s1 hinv hstep) h

theorem poolRun_started (cap me : Nat) (sched : List PoolAct) :
    ∀ (s t : Pool), poolRun cap me sched s = some t →
      s.started ≤ t.started
        ∧ (s.pc = WorkerPC.retired → t.pc = WorkerPC.retired ∧ t.started = s.started) := by
  induction sched with
  | nil =>
    intro s t h
    simp only [poolRun, Option.some.injEq] at h
    subst h
    exact ⟨Nat.le_refl _, fun hr => ⟨hr, rfl⟩⟩
  | cons a rest ih =>
    intro s t h
    rw [poolRun] at h
    cases hstep : poolStep cap me a s with
    | none => rw [hstep] at h; cases h
    | some s1 =>
      rw [hstep] at h
      have h1 := poolStep_started cap me a s s1 hstep
      have h2 := ih s1 t h
      refine ⟨Nat.le_trans h1.1 h2.1, fun hr => ?_⟩
      have h3 := h1.2 hr
      have h4 := h2.2 h3.1
      exact ⟨h4.1, h4.2.trans h3.2⟩

theorem PoolInv_init (me : Nat) : PoolInv me Pool.init := by
  simp [PoolInv, Pool.init, Pool.registrations]

theorem JobInv_init : JobInv Pool.init := by
  simp [JobInv, Pool.init]

/-- C5, amended. Once the Worker has taken the quit signal it stays retired and
begins no further job; every job begun before a state `s1` (in particular a job
in progress when `Stop()` was called) has had its terminal message sent and its
`MessageChan` closed by the time the Worker is retired; and while a job is in
progress the quit signal cannot be taken and the next statement of the job can
run. -/
theorem stop_honoured_between_jobs (cap me : Nat) (before after : List PoolAct) (s1 s2 : Pool)
    (h1 : poolRun cap me before Pool.init = some s1)
    (h2 : poolRun cap me after s1 = some s2) :
    (s1.pc = WorkerPC.retired → s2.pc = WorkerPC.retired ∧ s2.started = s1.started)
      ∧ (s2.pc = WorkerPC.retired → s1.started ≤ s2.terminals ∧ s1.started ≤ s2.closes)
      ∧ (s1.pc.busy = true →
          poolStep cap me PoolAct.takeQuit s1 = none
            ∧ (poolStep cap me PoolAct.worker s1).isSome = true) := by
  have hmono := poolRun_started cap me after s1 s2 h2
  have hj1 := poolRun_JobInv cap me before Pool.init s1 JobInv_init h1
  have hj2 := poolRun_JobInv cap me after s1 s2 hj1 h2
  refine ⟨hmono.2, ?_, ?_⟩
  · intro hr
    simp only [JobInv, hr] at hj2
    omega
  · intro hb
    obtain ⟨pc, queue, held, quits, started, terminals, closes⟩ := s1
    cases pc <;> simp [WorkerPC.busy] at hb <;> simp [poolStep, workerMove]

/-- C5, amended, at an execution in which `Stop()` is called during the first
job: the job is completed before the Worker retires. -/
theorem stop_honoured_between_jobs_witness :
    poolRun 1 7 [PoolAct.handoff, PoolAct.takeWork, PoolAct.stop] Pool.init
        = some { pc := WorkerPC.running, queue := [], held := [], quits := 1, started := 1,
                 terminals := 0, closes := 0 }
      ∧ poolRun 1 7 [PoolAct.worker, PoolAct.worker, PoolAct.worker, PoolAct.worker,
            PoolAct.worker, PoolAct.takeQuit]
          { pc := WorkerPC.running, queue := [], held := [], quits := 1, started := 1,
            terminals := 0, closes := 0 }
        = some { pc := WorkerPC.retired, queue := [7], held := [], quits := 0, started := 1,
                 terminals := 1, closes := 1 }
      ∧ (1 ≤ 1 ∧ 1 ≤ 1) :=
  ⟨by decide, by decide,
    (stop_honoured_between_jobs 1 7 [PoolAct.handoff, PoolAct.takeWork, PoolAct.stop]
      [PoolAct.worker, PoolAct.worker, PoolAct.worker, PoolAct.worker, PoolAct.worker,
        PoolAct.takeQuit]
      { pc := WorkerPC.running, queue := [], held := [], quits := 1, started := 1,
        terminals := 0, closes := 0 }
      { pc := WorkerPC.retired, queue := [7], held := [], quits := 0, started := 1,
        terminals := 1, closes := 1 }
      (by decide) (by decide)).2.1 rfl⟩

/-- C5, counterexample. `Stop()` is called while the Worker runs its first job;
the job completes, the Worker publishes its inbox again, the dispatcher takes it
and offers a second WorkRequest, and the `select` takes that request although the
quit request is still pending. -/
theorem job_begun_while_quit_pending :
    poolRun 1 7 [PoolAct.handoff, PoolAct.takeWork, PoolAct.stop, PoolAct.worker, PoolAct.worker,
        PoolAct.worker, PoolAct.worker] Pool.init
        = some { pc := WorkerPC.register, queue := [], held := [], quits := 1, started := 1,
                 terminals := 1, closes := 1 }
      ∧ poolRun 1 7 [PoolAct.worker, PoolAct.dispatcherTake, PoolAct.takeWork]
          { pc := WorkerPC.register, queue := [], held := [], quits := 1, started := 1,
            terminals := 1, closes := 1 }
        = some { pc := WorkerPC.running, queue := [], held := [], quits := 1, started := 2,
                 terminals := 1, closes := 1 }
      ∧ ¬ (∀ (before after : List PoolAct) (s1 s2 : Pool),
            poolRun 1 7 before Pool.init = some s1 → 0 < s1.quits →
            poolRun 1 7 after s1 = some s2 → s2.started = s1.started) := by
  refine ⟨by decide, by decide, ?_⟩
  intro hall
  have h := hall
    [PoolAct.handoff, PoolAct.takeWork, PoolAct.stop, PoolAct.worker, PoolAct.worker,
      PoolAct.worker, PoolAct.worker]
    [PoolAct.worker, PoolAct.dispatcherTake, PoolAct.takeWork]
    { pc := WorkerPC.register, queue := [], held := [], quits := 1, started := 1,
      terminals := 1, closes := 1 }
    { pc := WorkerPC.running, queue := [], held := [], quits := 1, started := 2,
      terminals := 1, closes := 1 }
    (by decide) (by decide) (by decide)
  exact absurd h (by decide)

/-- C6, amended. In every reachable state the inbox of the Worker is in
`WorkerQueue` only if the Worker waits in its `select` or has retired, and at most
once; the inbox of a busy Worker is not in the queue; and while the Worker waits
in its `select` its inbox is in the queue or has been taken by the dispatcher. -/
theorem inbox_queued_only_if_waiting_or_retired (cap me : Nat) (sched : List PoolAct) (s : Pool)
    (h : poolRun cap me sched Pool.init = some s) :
    (me ∈ s.queue → s.pc = WorkerPC.select ∨ s.pc = WorkerPC.retired)
      ∧ (s.pc.busy = true → me ∉ s.queue)
      ∧ s.queue.count me ≤ 1
      ∧ (s.pc = WorkerPC.select → me ∈ s.queue ∨ me ∈ s.held) := by
  have hinv := poolRun_PoolInv cap me sched Pool.init s (PoolInv_init me) h
  obtain ⟨pc, queue, held, quits, started, terminals, closes⟩ := s
  simp only [PoolInv, Pool.registrations] at hinv
  refine ⟨?_, ?_, ?_, ?_⟩
  · intro hmem
    have hpos : 0 < queue.count me := List.count_pos_iff.mpr hmem
    cases pc <;> simp at hinv ⊢ <;> omega
  · intro hb hmem
    have hpos : 0 < queue.count me := List.count_pos_iff.mpr hmem
    cases pc <;> simp [WorkerPC.busy] at hb <;> (simp only at hinv; omega)
  · cases pc <;> simp at hinv ⊢ <;> omega
  · intro hsel
    simp only at hsel
    subst hsel
    simp only at hinv
    by_cases hq : me ∈ queue
    · exact Or.inl hq
    · right
      have h0 : queue.count me = 0 := List.count_eq_zero.mpr hq
      have hp : 0 < held.count me := by omega
      exact List.count_pos_iff.mp hp

/-- C6, amended, at an execution that makes the Worker busy: its inbox is not in
the queue. -/
theorem inbox_queued_only_if_waiting_or_retired_witness :
    poolRun 1 7 [PoolAct.worker, PoolAct.dispatcherTake, PoolAct.takeWork] Pool.init
        = some { pc := WorkerPC.running, queue := [], held := [], quits := 0, started := 1,
                 terminals := 0, closes := 0 }
      ∧ 7 ∉ ([] : List Nat) :=
  ⟨by decide,
    (inbox_queued_only_if_waiting_or_retired 1 7
      [PoolAct.worker, PoolAct.dispatcherTake, PoolAct.takeWork]
      { pc := WorkerPC.running, queue := [], held := [], quits := 0, started := 1,
        terminals := 0, closes := 0 } (by decide)).2.1 rfl⟩

/-- C6, counterexample. With a queue of capacity one: (1) the Worker publishes
its inbox, `Stop()` is called and the `select` takes the quit signal: the Worker
is retired and its inbox is in the queue; (2) the Worker publishes its inbox and
the dispatcher takes it: the Worker waits in its `select` and its inbox is not in
the queue. -/
theorem inbox_queued_iff_waiting_fails :
    poolRun 1 7 [PoolAct.worker, PoolAct.stop, PoolAct.takeQuit] Pool.init
        = some { pc := WorkerPC.retired, queue := [7], held := [], quits := 0, started := 0,
                 terminals := 0, closes := 0 }
      ∧ poolRun 1 7 [PoolAct.worker, PoolAct.dispatcherTake] Pool.init
        = some { pc := WorkerPC.select, queue := [], held := [7], quits := 0, started := 0,
                 terminals := 0, closes := 0 }
      ∧ ¬ (∀ (sched : List PoolAct) (s : Pool), poolRun 1 7 sched Pool.init = some s →
            (7 ∈ s.queue ↔ s.pc = WorkerPC.select))
      ∧ ¬ (∀ (sched : List PoolAct) (s : Pool), poolRun 1 7 sched Pool.init = some s →
            (s.pc = WorkerPC.select → 7 ∈ s.queue)) := by
  refine ⟨by decide, by decide, ?_, ?_⟩
  · intro hall
    have h := hall [PoolAct.worker, PoolAct.stop, PoolAct.takeQuit]
      { pc := WorkerPC.retired, queue := [7], held := [], quits := 0, started := 0,
        terminals := 0, closes := 0 } (by decide)
    exact absurd (h.mp (by decide)) (by decide)
  · intro hall
    have h := hall [PoolAct.worker, PoolAct.dispatcherTake]
      { pc := WorkerPC.select, queue := [], held := [7], quits := 0, started := 0,
        terminals := 0, closes := 0 } (by decide) rfl
    exact absurd h (by decide)

/-! ## The streaming loop: what it sends and what it logs -/

theorem streamLoop_sends (disk : Nat → Option String) (tokens : List String) :
    ∀ (ch : Chan) (lw : LogWriter), Chan.closed ch = false →
      (streamLoop disk tokens (ch, lw)).map (fun st => st.1)
        = some (ch ++ tokens.map (ChanOp.send Sender.stream)) := by
  induction tokens with
  | nil =>
    intro ch lw _
    simp [streamLoop]
  | cons t rest ih =>
    intro ch lw hopen
    have hsend := Chan.send_of_open ch Sender.stream t hopen
    have hopen2 : Chan.closed (ch ++ [ChanOp.send Sender.stream t]) = false := by
      rw [Chan.closed_send]; exact hopen
    rw [streamLoop]
    simp only [streamBody, hsend]
    rw [ih _ _ hopen2]
    simp

theorem stripCR_of_cr (l : String) (h : l.data.getLast? = some '\r') : stripCR l ++ "\r" = l := by
  have hd : l.data.dropLast ++ ['\r'] = l.data :=
    List.dropLast_append_getLast? '\r' (by simp [h])
  apply String.ext
  rw [String.data_append]
  simp only [stripCR, dropCR, h, if_true]
  exact hd

theorem stripCR_of_no_cr (l : String) (h : l.data.getLast? ≠ some '\r') : stripCR l = l := by
  simp only [stripCR, dropCR, h, if_false]

/-- C7, amended. For every combined output made of newline-terminated lines,
each shorter than the token limit of the scanner, the streaming loop run on an
open `MessageChan` sends the lines, one message per line, in order and without
the line terminator, whatever happens to the writes of the log file; when every
write to the log file succeeds, the log file holds each of those lines followed
by a newline; the line terminator is the newline and the carriage return before
it, if there is one. -/
theorem stream_sends_lines_in_order (disk : Nat → Option String) (lines : List String)
    (hnl : ∀ l ∈ lines, '\n' ∉ l.data) (hlen : ∀ l ∈ lines, l.length < MaxScanTokenSize) :
    (streamed disk lines).map (fun r => r.1) = some (lines.map stripCR)
      ∧ ((∀ k, disk k = none) → StreamsEveryLine disk lines)
      ∧ (∀ l ∈ lines, (l.data.getLast? = some '\r' → stripCR l ++ "\r" = l)
            ∧ (l.data.getLast? ≠ some '\r' → stripCR l = l)) := by
  refine ⟨?_, ?_, fun l _ => ⟨stripCR_of_cr l, stripCR_of_no_cr l⟩⟩
  · unfold streamed scanLines
    rw [scanFrom_outputOf MaxScanTokenSize lines hnl hlen]
    have h := streamLoop_sends disk (lines.map stripCR) [] LogWriter.fresh rfl
    rw [Option.map_map]
    cases hr : streamLoop disk (lines.map stripCR) ([], LogWriter.fresh) with
    | none => rw [hr] at h; cases h
    | some st =>
      rw [hr] at h
      simp only [Option.map_some', Option.some.injEq] at h
      simp only [Option.map_some', Function.comp, h, List.nil_append,
        Chan.messages_map_send]
  · intro hdisk
    unfold StreamsEveryLine streamed scanLines
    rw [scanFrom_outputOf MaxScanTokenSize lines hnl hlen]
    rw [streamLoop_ok disk hdisk (lines.map stripCR) [] LogWriter.fresh rfl rfl rfl rfl]
    simp only [Option.map_some', List.nil_append, Chan.messages_map_send, LogWriter.fresh,
      String.empty_append]

/-- C7, amended, at the output `a` (ended by a carriage return and a newline)
and `b`: with a full disk the messages are still `a`, `b`; with a healthy disk the
messages are `a`, `b` and the log file holds `a` and `b`, each followed by a
newline. -/
theorem stream_sends_lines_in_order_witness :
    (streamed (fun _ => some "no space left on device") ["a\r", "b"]).map (fun r => r.1)
        = some ["a", "b"]
      ∧ streamed (fun _ => none) ["a\r", "b"] = some (["a", "b"], "a\nb\n")
      ∧ streamed (fun _ => none) ["a", "b"] = some (["a", "b"], "a\nb\n") :=
  ⟨(stream_sends_lines_in_order (fun _ => some "no space left on device") ["a\r", "b"]
      (by decide) (by decide)).1.trans (by decide),
    ((stream_sends_lines_in_order (fun _ => none) ["a\r", "b"] (by decide) (by decide)).2.1
      (fun _ => rfl)).trans (by decide),
    ((stream_sends_lines_in_order (fun _ => none) ["a", "b"] (by decide) (by decide)).2.1
      (fun _ => rfl)).trans (by decide)⟩

/-! ## One job: what holds in every execution -/

theorem mainStep_keeps_stream (p : JobParams) (s t : Job) (h : mainStep p s = some t) :
    t.pipeClosed = s.pipeClosed ∧ t.stream = s.stream ∧ t.pipe = s.pipe := by
  unfold mainStep at h
  split at h
  · split at h
    · cases h; exact ⟨rfl, rfl, rfl⟩
    · cases h
  · split at h <;> (cases h; exact ⟨rfl, rfl, rfl⟩)
  · cases h; exact ⟨rfl, rfl, rfl⟩
  · split at h
    · split at h <;> (cases h; exact ⟨rfl, rfl, rfl⟩)
    · split at h <;> (cases h; exact ⟨rfl, rfl, rfl⟩)
  · cases h; exact ⟨rfl, rfl, rfl⟩
  · split at h <;> (cases h; exact ⟨rfl, rfl, rfl⟩)
  · cases h

theorem streamStep_keeps_main (p : JobParams) (chunk : Nat) (s t : Job)
    (h : streamStep p chunk s = some t) : t.main = s.main := by
  unfold streamStep at h
  split at h
  · split at h
    · cases h; rfl
    · split at h
      · split at h
        · cases h; rfl
        · cases h
      · split at h <;> (cases h; rfl)
  · split at h <;> (cases h; rfl)
  · cases h; rfl
  · cases h; rfl
  · cases h; rfl
  · cases h

theorem streamStep_StreamAlive (p : JobParams) (chunk : Nat) (s t : Job)
    (hinv : StreamAlive s) (h : streamStep p chunk s = some t) : StreamAlive t := by
  obtain ⟨hclosed, hexit, hfin, hshort⟩ := hinv
  unfold streamStep at h
  split at h
  · split at h
    · cases h
      exact ⟨hclosed, by simp, by simp, hshort⟩
    · split at h
      · rw [hclosed] at h
        simp at h
      · rename_i next more hpipe
        have hnext : next.length < MaxScanTokenSize := hshort next (by rw [hpipe]; simp)
        rw [if_neg (by omega)] at h
        cases h
        refine ⟨hclosed, by simp, by simp, ?_⟩
        intro l hl
        exact hshort l (by rw [hpipe]; exact List.mem_cons_of_mem _ (List.mem_of_mem_drop hl))
  · split at h
    · cases h
      exact ⟨hclosed, hexit, hfin, hshort⟩
    · cases h
      exact ⟨hclosed, by simp, by simp, hshort⟩
  · cases h
    exact ⟨hclosed, by simp, by simp, hshort⟩
  · cases h
    exact ⟨hclosed, by simp, by simp, hshort⟩
  · rename_i hpc
    exact absurd hpc hexit
  · cases h

theorem step_StreamAlive (p : JobParams) (a : Act) (s t : Job)
    (hinv : StreamAlive s) (h : step p a s = some t) : StreamAlive t := by
  unfold step at h
  split at h
  · cases h
  · cases a with
    | stream chunk => exact streamStep_StreamAlive p chunk s t hinv h
    | main =>
      have hk := mainStep_keeps_stream p s t h
      unfold StreamAlive at hinv ⊢
      rw [hk.1, hk.2.1, hk.2.2]
      exact hinv

theorem run_StreamAlive (p : JobParams) (sched : List Act) :
    ∀ (s t : Job), StreamAlive s → run p sched s = some t → StreamAlive t := by
  induction sched with
  | nil =>
    intro s t hinv h
    simp only [run, Option.some.injEq] at h
    exact h ▸ hinv
  | cons a rest ih =>
    intro s t hinv h
    rw [run] at h
    cases hstep : step p a s with
    | none => rw [hstep] at h; cases h
    | some s1 =>
      rw [hstep] at h
      exact ih s1 t (step_StreamAlive p a s s1 hinv hstep) h

/-- C9, which fails in every execution. No statement of `runScript` closes the
write end of the pipe, so for every output whose lines are shorter than the token
limit of the scanner, in every reachable state of the job the pipe is open and
the streaming goroutine has neither left its loop nor returned; once all output
is consumed it is blocked in `scanner.Scan()` for good. -/
theorem stream_goroutine_never_returns (p : JobParams) (sched : List Act) (s : Job)
    (hshort : ∀ l ∈ p.output, l.length < MaxScanTokenSize)
    (h : run p sched (Job.init p) = some s) :
    s.pipeClosed = false ∧ s.stream ≠ StreamPC.loopExit ∧ s.stream ≠ StreamPC.finished
      ∧ (s.stream = StreamPC.scan → s.buffered = [] → s.pipe = [] →
          ∀ chunk, step p (Act.stream chunk) s = none) := by
  have hinv := run_StreamAlive p sched (Job.init p) s
    ⟨rfl, by simp [Job.init], by simp [Job.init], hshort⟩ h
  refine ⟨hinv.1, hinv.2.1, hinv.2.2.1, ?_⟩
  intro hscan hbuf hpipe chunk
  unfold step
  split
  · rfl
  · simp [streamStep, hscan, hbuf, hpipe, hinv.1]

/-- C9 at a script that prints `a` and exits with status zero: `runScript` has
returned, the streaming goroutine is at `scanner.Scan()` and cannot move. -/
theorem stream_goroutine_never_returns_witness :
    run jobA [Act.stream 0, Act.stream 0, Act.stream 0, Act.stream 0, Act.main, Act.main]
        (Job.init jobA)
      = some { main := MainPC.returned "/tmp/hook_20170305_0907.txt" none,
               stream := StreamPC.scan, err := none, pipe := [], pipeClosed := false,
               buffered := [], chan := [ChanOp.send Sender.stream "a"],
               log := { file := "a\n", buf := "", err := none, nwrites := 1, closed := true },
               notifications := [], panic := none }
    ∧ step jobA (Act.stream 0)
        { main := MainPC.returned "/tmp/hook_20170305_0907.txt" none,
          stream := StreamPC.scan, err := none, pipe := [], pipeClosed := false,
          buffered := [], chan := [ChanOp.send Sender.stream "a"],
          log := { file := "a\n", buf := "", err := none, nwrites := 1, closed := true },
          notifications := [], panic := none } = none :=
  ⟨by decide,
    (stream_goroutine_never_returns jobA
      [Act.stream 0, Act.stream 0, Act.stream 0, Act.stream 0, Act.main, Act.main]
      _ (by decide) (by decide)).2.2.2 rfl rfl rfl 0⟩

/-- A line of `MaxScanTokenSize` bytes or more: the scanner stops with
`bufio.ErrTooLong`, the streaming goroutine leaves its loop and returns, the
output stays in the pipe, and `cmd.Wait()` cannot return. -/
theorem long_line_ends_stream_and_blocks_wait (p : JobParams) (s : Job) (next : String)
    (more : List String) (hpc : s.stream = StreamPC.scan) (hbuf : s.buffered = [])
    (hpipe : s.pipe = next :: more) (hlong : MaxScanTokenSize ≤ next.length)
    (hpanic : s.panic = none) (hmain : s.main = MainPC.wait) :
    run p [Act.stream 0, Act.stream 0] s = some { s with stream := StreamPC.finished }
      ∧ step p Act.main { s with stream := StreamPC.finished } = none
      ∧ ∀ chunk, step p (Act.stream chunk) { s with stream := StreamPC.finished } = none := by
  refine ⟨?_, ?_, ?_⟩
  · simp [run, step, streamStep, hpc, hbuf, hpipe, hlong, hpanic]
  · simp [step, mainStep, hpanic, hmain, hpipe]
  · intro chunk
    simp [step, streamStep, hpanic]

/-- In every execution the path that `runScript` returns from lines 90 and 93 is
the variable `logFilename`. -/
theorem step_returns_logFilename (p : JobParams) (a : Act) (s t : Job)
    (hinv : ∀ f e, s.main = MainPC.returned f e → f = p.logFilename)
    (h : step p a s = some t) :
    ∀ f e, t.main = MainPC.returned f e → f = p.logFilename := by
  unfold step at h
  split at h
  · cases h
  · cases a with
    | stream chunk =>
      have hk := streamStep_keeps_main p chunk s t h
      rw [hk]
      exact hinv
    | main =>
      simp only at h
      unfold mainStep at h
      intro f e hret
      split at h
      · split at h
        · cases h; cases hret
        · cases h
      · split at h
        · cases h; cases hret
        · cases h; cases hret; rfl
      · cases h; cases hret; rfl
      · split at h
        · split at h <;> cases h <;> first | exact hinv f e hret | cases hret
        · split at h <;> cases h <;> first | exact hinv f e hret | cases hret
      · cases h; cases hret
      · rename_i hpc
        split at h <;> cases h <;> first | cases hret | (rw [hpc] at hret; cases hret)
      · cases h

theorem run_returns_logFilename (p : JobParams) (sched : List Act) :
    ∀ (s t : Job), (∀ f e, s.main = MainPC.returned f e → f = p.logFilename) →
      run p sched s = some t → ∀ f e, t.main = MainPC.returned f e → f = p.logFilename := by
  induction sched with
  | nil =>
    intro s t hinv h
    simp only [run, Option.some.injEq] at h
    exact h ▸ hinv
  | cons a rest ih =>
    intro s t hinv h
    rw [run] at h
    cases hstep : step p a s with
    | none => rw [hstep] at h; cases h
    | some s1 =>
      rw [hstep] at h
      exact ih s1 t (step_returns_logFilename p a s s1 hinv hstep) h

theorem run_append (p : JobParams) (a b : List Act) :
    ∀ (s : Job), run p (a ++ b) s = (run p a s).bind (run p b) := by
  induction a with
  | nil => intro s; rfl
  | cons x rest ih =>
    intro s
    simp only [List.cons_append, run]
    cases step p x s with
    | none => rfl
    | some s1 => exact ih s1

/-- The streaming goroutine can consume the whole output, line by line, when
every line is shorter than the token limit and `MessageChan` is open. -/
theorem stream_can_drain (p : JobParams) (lines : List String) :
    ∀ (s : Job), s.stream = StreamPC.scan → s.buffered = [] → s.pipe = lines →
      (∀ l ∈ lines, l.length < MaxScanTokenSize) → s.panic = none →
      Chan.closed s.chan = false →
      ∃ sched t, run p sched s = some t ∧ t.pipe = [] ∧ t.main = s.main ∧ t.panic = none := by
  induction lines with
  | nil =>
    intro s _ _ hpipe _ hpanic _
    exact ⟨[], s, rfl, hpipe, rfl, hpanic⟩
  | cons next more ih =>
    intro s hpc hbuf hpipe hshort hpanic hopen
    have hnext : ¬ MaxScanTokenSize ≤ next.length := by
      have := hshort next (List.mem_cons_self _ _)
      omega
    have hsend := Chan.send_of_open s.chan Sender.stream (stripCR next) hopen
    have h4 : ∃ s4, run p [Act.stream 0, Act.stream 0, Act.stream 0, Act.stream 0] s = some s4
        ∧ s4.stream = StreamPC.scan ∧ s4.buffered = [] ∧ s4.pipe = more ∧ s4.panic = none
        ∧ Chan.closed s4.chan = false ∧ s4.main = s.main := by
      refine ⟨{ s with stream := StreamPC.scan, buffered := [], pipe := more,
                       chan := s.chan ++ [ChanOp.send Sender.stream (stripCR next)],
                       log := ((s.log.WriteString (stripCR next ++ "\n")).1.Flush p.disk).1,
                       err := ((s.log.WriteString (stripCR next ++ "\n")).1.Flush p.disk).2 },
        ?_, rfl, rfl, rfl, hpanic, ?_, rfl⟩
      · simp [run, step, streamStep, hpc, hbuf, hpipe, hnext, hpanic, hsend]
      · simp only
        rw [Chan.closed_send]
        exact hopen
    obtain ⟨s4, hrun4, h1, h2, h3, h5, h6, h7⟩ := h4
    obtain ⟨sched, t, hrun, ht1, ht2, ht3⟩ :=
      ih s4 h1 h2 h3 (fun l hl => hshort l (List.mem_cons_of_mem _ hl)) h5 h6
    refine ⟨[Act.stream 0, Act.stream 0, Act.stream 0, Act.stream 0] ++ sched, t, ?_, ht1,
      ht2.trans h7, ht3⟩
    rw [run_append, hrun4]
    exact hrun

/-- The function `runScript` can return: for every job whose output lines are
shorter than the token limit there is an execution in which it returns the
variable `logFilename` and the outcome of `cmd.Wait()`. -/
theorem runScript_can_return (p : JobParams)
    (hshort : ∀ l ∈ p.output, l.length < MaxScanTokenSize) :
    ∃ sched s, run p sched (Job.init p) = some s
      ∧ s.main = MainPC.returned p.logFilename p.waitErr := by
  obtain ⟨sched, t, hrun, hpipe, hmain, hpanic⟩ :=
    stream_can_drain p p.output (Job.init p) rfl rfl rfl hshort rfl rfl
  have hret := runScript_returns_wait_outcome_uninterrupted p t (hmain.trans rfl) hpipe hpanic
  cases hr : run p (if p.waitErr = none then [Act.main, Act.main]
      else [Act.main, Act.main, Act.main]) t with
  | none => rw [hr] at hret; cases hret
  | some u =>
    rw [hr] at hret
    simp only [Option.map_some', Option.some.injEq] at hret
    refine ⟨sched ++ (if p.waitErr = none then [Act.main, Act.main]
      else [Act.main, Act.main, Act.main]), u, ?_, hret⟩
    rw [run_append, hrun]
    exact hr

/-- The interleaving in which `runScript` returns before the streaming goroutine
has handled the lines it read: the deferred `logFile.Close()` has run, every
later `Flush` fails on the closed file, and the lines `a` and `b` are sent while
the log file stays empty. -/
theorem lines_sent_but_not_logged_when_runScript_returns_first :
    (run jobAB [Act.stream 1, Act.main, Act.main, Act.stream 0, Act.stream 0, Act.stream 0,
        Act.stream 0, Act.stream 0, Act.stream 0, Act.stream 0] (Job.init jobAB)).map
        (fun s => (s.main, Chan.messages s.chan, s.log.file, s.log.err))
      = some (MainPC.returned "/tmp/hook_20170305_0907.txt" none, ["a", "b"], "",
              some "file already closed") := by
  decide


/-! ## The log path -/

theorem digitChar_mod_ten (m : Nat) : Nat.digitChar (m % 10) = decimalDigit m := by
  unfold decimalDigit
  have h : m % 10 < 10 := Nat.mod_lt _ (by decide)
  generalize m % 10 = k at h
  interval_cases k <;> rfl

theorem toDigitsCore_succ (fuel n : Nat) (ds : List Char) :
    Nat.toDigitsCore 10 (fuel + 1) n ds
      = if n / 10 = 0 then decimalDigit n :: ds
        else Nat.toDigitsCore 10 fuel (n / 10) (decimalDigit n :: ds) := by
  simp only [Nat.toDigitsCore, digitChar_mod_ten]

theorem toDigitsCore_one (fuel n : Nat) (ds : List Char) (h : n < 10) :
    Nat.toDigitsCore 10 (fuel + 1) n ds = decimalDigit n :: ds := by
  rw [toDigitsCore_succ, if_pos (by omega)]

theorem toDigitsCore_two (fuel n : Nat) (ds : List Char) (h : n < 100) (h1 : 10 ≤ n) :
    Nat.toDigitsCore 10 (fuel + 2) n ds = decimalDigit (n / 10) :: decimalDigit n :: ds := by
  rw [toDigitsCore_succ, if_neg (by omega), toDigitsCore_one _ _ _ (by omega)]

theorem toDigitsCore_three (fuel n : Nat) (ds : List Char) (h : n < 1000) (h1 : 100 ≤ n) :
    Nat.toDigitsCore 10 (fuel + 3) n ds
      = decimalDigit (n / 100) :: decimalDigit (n / 10) :: decimalDigit n :: ds := by
  rw [toDigitsCore_succ, if_neg (by omega), toDigitsCore_two _ _ _ (by omega) (by omega),
    Nat.div_div_eq_div_mul]

theorem toDigitsCore_four (fuel n : Nat) (ds : List Char) (h : n < 10000) (h1 : 1000 ≤ n) :
    Nat.toDigitsCore 10 (fuel + 4) n ds
      = decimalDigit (n / 1000) :: decimalDigit (n / 100) :: decimalDigit (n / 10)
          :: decimalDigit n :: ds := by
  rw [toDigitsCore_succ, if_neg (by omega), toDigitsCore_three _ _ _ (by omega) (by omega),
    Nat.div_div_eq_div_mul, Nat.div_div_eq_div_mul]

theorem decimalDigit_zero (n : Nat) (h : n = 0) : decimalDigit n = '0' := by
  subst h; rfl

theorem zeroPad_two (n : Nat) (h : n < 100) :
    zeroPad 2 n = String.mk [decimalDigit (n / 10), decimalDigit n] := by
  unfold zeroPad Nat.toDigits
  by_cases h1 : n < 10
  · rw [toDigitsCore_one n n [] h1, decimalDigit_zero (n / 10) (by omega)]
    rfl
  · obtain ⟨k, rfl⟩ : ∃ k, n = k + 1 := ⟨n - 1, by omega⟩
    rw [toDigitsCore_two k (k + 1) [] h (by omega)]
    rfl

theorem zeroPad_four (n : Nat) (h : n < 10000) :
    zeroPad 4 n = String.mk [decimalDigit (n / 1000), decimalDigit (n / 100),
      decimalDigit (n / 10), decimalDigit n] := by
  unfold zeroPad Nat.toDigits
  by_cases h1 : n < 10
  · rw [toDigitsCore_one n n [] h1, decimalDigit_zero (n / 10) (by omega),
      decimalDigit_zero (n / 100) (by omega), decimalDigit_zero (n / 1000) (by omega)]
    rfl
  · by_cases h2 : n < 100
    · obtain ⟨k, rfl⟩ : ∃ k, n = k + 1 := ⟨n - 1, by omega⟩
      rw [toDigitsCore_two k (k + 1) [] h2 (by omega),
        decimalDigit_zero ((k + 1) / 100) (by omega), decimalDigit_zero ((k + 1) / 1000) (by omega)]
      rfl
    · by_cases h3 : n < 1000
      · obtain ⟨k, rfl⟩ : ∃ k, n = k + 2 := ⟨n - 2, by omega⟩
        rw [toDigitsCore_three k (k + 2) [] h3 (by omega),
          decimalDigit_zero ((k + 2) / 1000) (by omega)]
        rfl
      · obtain ⟨k, rfl⟩ : ∃ k, n = k + 3 := ⟨n - 3, by omega⟩
        rw [toDigitsCore_four k (k + 3) [] h (by omega)]
        rfl

/-- The layout `20060102_1504` prints a calendar time as `YYYYMMDD_HHMM`. -/
theorem Time.format_eq_specTimestamp (t : Time) (h : t.wellFormed) :
    t.format = specTimestamp t := by
  obtain ⟨hy, _, hm, _, hd, hh, hmin⟩ := h
  unfold Time.format specTimestamp
  rw [zeroPad_four t.year hy, zeroPad_two t.month (by omega), zeroPad_two t.day (by omega),
    zeroPad_two t.hour (by omega), zeroPad_two t.minute (by omega)]
  rfl

/-- The set-up phase of `runScript` leaves `workingdir` set as
`script_runner.go:31-33` sets it, whichever way it ends. -/
theorem runScriptSetup_workingdir (sys : Sys) (w : World) (work : WorkRequest) :
    (runScriptSetup sys w work).world.workingdir
      = if w.workingdir = "" then sys.TempDir else w.workingdir := by
  unfold runScriptSetup
  rcases sys.LookPath work.Script with ⟨binary, _ | e⟩
  · simp only
    split
    · rfl
    · split <;> rfl
  · rfl

/-- After any number of earlier calls the variable `workingdir` holds
`APP_WORKING_DIR`, or the temporary directory when `APP_WORKING_DIR` is empty and
`runScript` has been called. -/
theorem worldAfter_workingdir (appWorkingDir tmp : String) (earlier : List (Sys × WorkRequest))
    (htmp : ∀ c ∈ earlier, c.1.TempDir = tmp) :
    (worldAfter appWorkingDir earlier).workingdir = appWorkingDir
      ∨ (appWorkingDir = "" ∧ (worldAfter appWorkingDir earlier).workingdir = tmp) := by
  induction earlier with
  | nil => exact Or.inl rfl
  | cons c rest ih =>
    obtain ⟨sys, work⟩ := c
    have hsys : sys.TempDir = tmp := htmp (sys, work) (List.mem_cons_self _ _)
    have ih2 := ih (fun c hc => htmp c (List.mem_cons_of_mem _ hc))
    rw [worldAfter, runScriptSetup_workingdir, hsys]
    rcases ih2 with h | ⟨h1, h2⟩
    · rw [h]
      by_cases happ : appWorkingDir = ""
      · rw [if_pos happ]
        exact Or.inr ⟨happ, rfl⟩
      · rw [if_neg happ]
        exact Or.inl rfl
    · rw [h2]
      right
      refine ⟨h1, ?_⟩
      split <;> rfl

/-- C10, amended. After any earlier calls of `runScript`, for a script that
resolves and a start time of the calendar up to the year 9999: `os.Create` is
called at the working directory joined with
`snake_case(work.Name) + "_" + YYYYMMDD_HHMM + ".txt"`, the working directory being
`APP_WORKING_DIR` or the temporary directory when that is empty. When the file
cannot be created `runScript` returns the empty path and creates nothing. When
it is created, the file exists at that path, and that path is what `runScript`
returns: from line 64 when the process does not start, and from lines 90 and 93
in every execution of the job otherwise, where `runScript` can indeed return. -/
theorem runScript_log_path (appWorkingDir : String) (earlier : List (Sys × WorkRequest))
    (sys : Sys) (work : WorkRequest) (binary : String)
    (htmp : ∀ c ∈ earlier, c.1.TempDir = sys.TempDir)
    (htime : sys.Now.wellFormed)
    (hlook : sys.LookPath work.Script = (binary, none)) :
    (∀ e, sys.Create (specLogPath sys appWorkingDir work) = some e →
        (runScriptSetup sys (worldAfter appWorkingDir earlier) work).early = some ("", e)
          ∧ (runScriptSetup sys (worldAfter appWorkingDir earlier) work).world.files
              = (worldAfter appWorkingDir earlier).files)
    ∧ (sys.Create (specLogPath sys appWorkingDir work) = none →
        (specLogPath sys appWorkingDir work, "")
            ∈ (runScriptSetup sys (worldAfter appWorkingDir earlier) work).world.files
          ∧ (∀ e, sys.Start (commandOf sys binary work) = some e →
              (runScriptSetup sys (worldAfter appWorkingDir earlier) work).early
                = some (specLogPath sys appWorkingDir work, e))
          ∧ (sys.Start (commandOf sys binary work) = none →
              ∀ (output : List String) (waitErr : Option String) (disk : Nat → Option String),
                (runScriptSetup sys (worldAfter appWorkingDir earlier) work).job work output
                    waitErr disk
                  = some (specJob sys appWorkingDir work output waitErr disk)
                ∧ (∀ (sched : List Act) (s : Job) (f : String) (e : Option String),
                    run (specJob sys appWorkingDir work output waitErr disk) sched
                        (Job.init (specJob sys appWorkingDir work output waitErr disk)) = some s →
                    s.main = MainPC.returned f e → f = specLogPath sys appWorkingDir work)
                ∧ ((∀ l ∈ output, l.length < MaxScanTokenSize) →
                    ∃ sched s,
                      run (specJob sys appWorkingDir work output waitErr disk) sched
                          (Job.init (specJob sys appWorkingDir work output waitErr disk)) = some s
                        ∧ s.main = MainPC.returned (specLogPath sys appWorkingDir work) waitErr))) := by
  have hdir : (if (worldAfter appWorkingDir earlier).workingdir = "" then sys.TempDir
      else (worldAfter appWorkingDir earlier).workingdir) = specWorkingDir sys appWorkingDir := by
    unfold specWorkingDir
    rcases worldAfter_workingdir appWorkingDir sys.TempDir earlier htmp with h | ⟨h1, h2⟩
    · rw [h]
    · rw [h2, h1]
      simp
  have hfmt := Time.format_eq_specTimestamp sys.Now htime
  refine ⟨?_, ?_⟩
  · intro e hc
    unfold specLogPath at hc
    simp only [runScriptSetup, hlook, hdir, hfmt, hc, Setup.early, Setup.world, and_self]
  · intro hc
    unfold specLogPath at hc
    refine ⟨?_, ?_, ?_⟩
    · rcases hs : sys.Start (commandOf sys binary work) with _ | e
      · simp only [runScriptSetup, hlook, hdir, hfmt, hc, hs, Setup.world, specLogPath,
          World.create]
        exact List.mem_cons_self _ _
      · simp only [runScriptSetup, hlook, hdir, hfmt, hc, hs, Setup.world, specLogPath,
          World.create]
        exact List.mem_cons_self _ _
    · intro e hs
      simp only [runScriptSetup, hlook, hdir, hfmt, hc, hs, Setup.early, specLogPath]
    · intro hs output waitErr disk
      refine ⟨?_, ?_, ?_⟩
      · simp only [runScriptSetup, hlook, hdir, hfmt, hc, hs, Setup.job, specLogPath, specJob]
      · intro sched s f e hrun hret
        exact run_returns_logFilename (specJob sys appWorkingDir work output waitErr disk) sched
          (Job.init (specJob sys appWorkingDir work output waitErr disk)) s
          (fun f e h => by simp [Job.init] at h) hrun f e hret
      · intro hshort
        exact runScript_can_return (specJob sys appWorkingDir work output waitErr disk) hshort

/-- C10, amended, at two calls of `runScript`: the first at 09:07 on 5 March 2017
with `APP_WORKING_DIR` empty and the temporary directory `/tmp`, the second at
23:59 on 31 December 1999 with `APP_WORKING_DIR` set to `/var/hooks` after an
earlier call. -/
theorem runScript_log_path_witness :
    specLogPath sysDemo "" ⟨"hook", "echo", "x", []⟩ = "/tmp/hook_20170305_0907.txt"
      ∧ (specLogPath sysDemo "" ⟨"hook", "echo", "x", []⟩, "")
          ∈ (runScriptSetup sysDemo (worldAfter "" []) ⟨"hook", "echo", "x", []⟩).world.files
      ∧ specLogPath sysNight "/var/hooks" ⟨"MyHook", "echo", "x", []⟩
          = "/var/hooks/my_hook_19991231_2359.txt"
      ∧ (runScriptSetup sysNight
            (worldAfter "/var/hooks" [(sysDemo, ⟨"hook", "echo", "x", []⟩)])
            ⟨"MyHook", "echo", "x", []⟩).job ⟨"MyHook", "echo", "x", []⟩ ["a"] none
            (fun _ => none)
          = some (specJob sysNight "/var/hooks" ⟨"MyHook", "echo", "x", []⟩ ["a"] none
              (fun _ => none)) :=
  ⟨by decide,
    ((runScript_log_path "" [] sysDemo ⟨"hook", "echo", "x", []⟩ "/bin/echo"
      (fun _ h => by cases h) (by unfold Time.wellFormed; decide) (by decide)).2 (by decide)).1,
    by decide,
    (((runScript_log_path "/var/hooks" [(sysDemo, ⟨"hook", "echo", "x", []⟩)] sysNight
      ⟨"MyHook", "echo", "x", []⟩ "/bin/echo"
      (fun c h => by
        simp only [List.mem_singleton] at h
        subst h
        rfl)
      (by unfold Time.wellFormed; decide) (by decide)).2 (by decide)).2.2 (by decide) ["a"] none
      (fun _ => none)).1⟩

/-- C10, counterexample. The script resolves but the log file cannot be created:
`runScript` returns the empty path, not the path of the specification
(`script_runner.go:49-51`), and no file exists. Besides, a year of five digits is
printed with five digits. -/
theorem log_path_empty_when_create_fails :
    sysCreateFails.LookPath "echo" = ("/bin/echo", none)
      ∧ (runScriptSetup sysCreateFails (World.boot "") ⟨"hook", "echo", "x", []⟩).early
          = some ("", "permission denied")
      ∧ (runScriptSetup sysCreateFails (World.boot "") ⟨"hook", "echo", "x", []⟩).world.files = []
      ∧ specLogPath sysCreateFails "" ⟨"hook", "echo", "x", []⟩ = "/tmp/hook_20170305_0907.txt"
      ∧ Time.format ⟨10000, 1, 1, 0, 0⟩ = "100000101_0000" := by
  decide
end Webhookd
